import Mathlib

/-!
Shallow embedding of the CallPilot appointment scheduling and calendar-sync
engine.  Python strings are modelled as `List Char`; `datetime` values are
modelled as natural numbers counting minutes (a calendar date is the day
number `minutes / 1440`, and `day % 7` is the Python `date.weekday()` with
Monday = 0).  Timezone conversion and ISO-8601 text parsing are elided: both
sides of every comparison in the source are normalised to one timezone
before use, so the arithmetic is unaffected.
-/

/-- Characters of a string literal. -/
def strL (s : String) : List Char := s.toList

/-- The newline character used by the event-description line grammar. -/
def nl : Char := Char.ofNat 10

/-- Python `s.split(c)` for a one-character separator: splits on every
occurrence, keeping empty pieces, and yields `[s]` when the separator does
not occur. -/
def splitOnChar (c : Char) : List Char → List (List Char)
  | [] => [[]]
  | x :: xs =>
    if x = c then [] :: splitOnChar c xs
    else
      match splitOnChar c xs with
      | [] => [[x]]
      | h :: t => (x :: h) :: t

/-- Python `s.split(sep, 1)` fused with the `sep in s` test: `some (a, b)`
splits at the first occurrence of `sep`, `none` means `sep` does not occur. -/
def splitFirst (sep : List Char) : List Char → Option (List Char × List Char)
  | [] => none
  | x :: xs =>
    if sep.isPrefixOf (x :: xs) then some ([], List.drop sep.length (x :: xs))
    else
      match splitFirst sep xs with
      | some (a, b) => some (x :: a, b)
      | none => none

/-- Python `s.replace(pat, repl)`: replaces every non-overlapping occurrence
of `pat`, scanning left to right.  (The source never calls `replace` with an
empty pattern; an empty pattern is passed through unchanged here.) -/
def replaceAll (pat repl : List Char) (s : List Char) : List Char :=
  match s with
  | [] => []
  | x :: xs =>
    if pat.isEmpty then x :: replaceAll pat repl xs
    else if pat.isPrefixOf (x :: xs) then
      repl ++ replaceAll pat repl (List.drop (pat.length - 1) xs)
    else x :: replaceAll pat repl xs
termination_by s.length
decreasing_by
  all_goals simp only [List.length_cons, List.length_drop]
  all_goals omega

/-- Python `s.lower()` (ASCII case fold, which is all the source relies on). -/
def toLowerL (s : List Char) : List Char := s.map Char.toLower

/-- Whether `pat` occurs as a contiguous substring of `s`. -/
def containsSub (pat : List Char) : List Char → Bool
  | [] => decide (pat = [])
  | x :: xs => pat.isPrefixOf (x :: xs) || containsSub pat xs

/-- Lookup in the `parsed` dictionary built line by line: a later assignment
to the same key overwrites an earlier one, exactly as for a Python `dict`. -/
def lookupKey : List (List Char × List Char) → List Char → Option (List Char)
  | [], _ => none
  | kv :: rest, key =>
    match lookupKey rest key with
    | some r => some r
    | none => if kv.1 = key then some kv.2 else none

/-- Python `list.index` as an option (position of the first occurrence). -/
def idxOf : List (List Char) → List Char → Option Nat
  | [], _ => none
  | x :: xs, v =>
    if x = v then some 0
    else
      match idxOf xs v with
      | some i => some (i + 1)
      | none => none

/-! ## Data model (src/src/calendar/models.py) -/

/-- `AppointmentStatus` enumeration. -/
inductive AppointmentStatus
  | scheduled
  | confirmed
  | cancelled
  | no_show
  | completed
deriving DecidableEq, Repr

/-- `AppointmentType` enumeration. -/
inductive AppointmentType
  | checkup
  | consultation
  | follow_up
  | urgent
  | other
deriving DecidableEq, Repr

/-- `.value` of an `AppointmentStatus` member. -/
def statusValue : AppointmentStatus → List Char
  | .scheduled => strL (r"scheduled")
  | .confirmed => strL (r"confirmed")
  | .cancelled => strL (r"cancelled")
  | .no_show => strL (r"no_show")
  | .completed => strL (r"completed")

/-- `.value` of an `AppointmentType` member. -/
def typeValue : AppointmentType → List Char
  | .checkup => strL (r"checkup")
  | .consultation => strL (r"consultation")
  | .follow_up => strL (r"follow_up")
  | .urgent => strL (r"urgent")
  | .other => strL (r"other")

/-- The `AppointmentStatus(value)` enum constructor: `none` models the
`ValueError` Python raises on a value outside the enumeration. -/
def statusOfValue (v : List Char) : Option AppointmentStatus :=
  if v = strL (r"scheduled") then some .scheduled
  else if v = strL (r"confirmed") then some .confirmed
  else if v = strL (r"cancelled") then some .cancelled
  else if v = strL (r"no_show") then some .no_show
  else if v = strL (r"completed") then some .completed
  else none

/-- The `AppointmentType(value)` enum constructor: `none` models the
`ValueError` Python raises on a value outside the enumeration. -/
def typeOfValue (v : List Char) : Option AppointmentType :=
  if v = strL (r"checkup") then some .checkup
  else if v = strL (r"consultation") then some .consultation
  else if v = strL (r"follow_up") then some .follow_up
  else if v = strL (r"urgent") then some .urgent
  else if v = strL (r"other") then some .other
  else none

/-- `Patient` pydantic model. -/
structure Patient where
  name : List Char
  phone : List Char
  email : Option (List Char)
  notes : Option (List Char)
deriving DecidableEq, Repr

/-- `Appointment` pydantic model (times in minutes, see module comment). -/
structure Appointment where
  id : Option (List Char)
  patient : Patient
  start_time : Nat
  end_time : Nat
  appointment_type : AppointmentType
  status : AppointmentStatus
  reminder_sent : Bool
  created_at : Option Nat
deriving DecidableEq, Repr

/-- Python `x or default` for an optional string: `None` and the empty
string are both falsy, so both fall back to the default. -/
def orDefault (v : Option (List Char)) (d : List Char) : List Char :=
  match v with
  | some s => if s = [] then d else s
  | none => d

/-- `Appointment.to_calendar_description`. -/
def to_calendar_description (a : Appointment) : List Char :=
  strL (r"Patient: ") ++ a.patient.name ++ nl ::
  (strL (r"Phone: ") ++ a.patient.phone ++ nl ::
  (strL (r"Email: ") ++ orDefault a.patient.email (strL (r"N/A")) ++ nl ::
  (strL (r"Type: ") ++ typeValue a.appointment_type ++ nl ::
  (strL (r"Status: ") ++ statusValue a.status ++ nl ::
  (strL (r"Reminder Sent: ") ++
      (if a.reminder_sent then strL (r"true") else strL (r"false")) ++ nl ::
  (strL (r"Notes: ") ++ orDefault a.patient.notes (strL (r"None"))))))))

/-- A Google Calendar event resource, restricted to the fields the source
reads and writes (`id`, `summary`, `description`, `start`, `end`,
`created`); `stop` stands for the Python key `end`. -/
structure CalEvent where
  id : Option (List Char)
  summary : List Char
  description : List Char
  start : Nat
  stop : Nat
  created : Option Nat
deriving DecidableEq, Repr

/-- The description parser inside `Appointment.from_calendar_event`: each
line with a `": "` separator contributes `key.lower().replace(" ", "_")`
bound to the text after the first `": "`. -/
def parseDescription (desc : List Char) : List (List Char × List Char) :=
  (splitOnChar nl desc).filterMap fun line =>
    match splitFirst (strL (r": ")) line with
    | some kv => some (replaceAll (strL (r" ")) (strL (r"_")) (toLowerL kv.1), kv.2)
    | none => none

/-- `Appointment.from_calendar_event`; `none` models the `ValueError`
raised by the `AppointmentType`/`AppointmentStatus` constructors on an
unrecognised value. -/
def from_calendar_event (ev : CalEvent) : Option Appointment :=
  let parsed := parseDescription ev.description
  let emailv := lookupKey parsed (strL (r"email"))
  let notesv := lookupKey parsed (strL (r"notes"))
  let patient : Patient :=
    { name := (lookupKey parsed (strL (r"patient"))).getD (strL (r"Unknown"))
      phone := (lookupKey parsed (strL (r"phone"))).getD []
      email := match emailv with
        | some v => if v = strL (r"N/A") then none else some v
        | none => none
      notes := match notesv with
        | some v => if v = strL (r"None") then none else some v
        | none => none }
  match typeOfValue ((lookupKey parsed (strL (r"type"))).getD (strL (r"checkup"))),
      statusOfValue ((lookupKey parsed (strL (r"status"))).getD (strL (r"scheduled"))) with
  | some t, some st =>
    some { id := ev.id
           patient := patient
           start_time := ev.start
           end_time := ev.stop
           appointment_type := t
           status := st
           reminder_sent :=
             toLowerL ((lookupKey parsed (strL (r"reminder_sent"))).getD (strL (r"false")))
               = strL (r"true")
           created_at := ev.created }
  | _, _ => none

/-- The calendar event that `book_appointment` builds for an appointment:
summary `"Appointment: " + name`, description from the encoder, start/end
from the appointment. -/
def encodeEvent (a : Appointment) : CalEvent :=
  { id := a.id
    summary := strL (r"Appointment: ") ++ a.patient.name
    description := to_calendar_description a
    start := a.start_time
    stop := a.end_time
    created := a.created_at }

/-! ## Availability (src/src/calendar/availability.py) -/

/-- The fields of `calendar_config` that the availability and appointment
code reads (the configuration object itself lives outside `src/`, so it is
kept abstract and quantified over). -/
structure CalendarConfig where
  available_days : List Nat
  available_start_hour : Nat
  available_start_minute : Nat
  available_end_hour : Nat
  available_end_minute : Nat
  appointment_duration_minutes : Nat
  buffer_between_appointments_minutes : Nat
deriving DecidableEq, Repr

/-- A `TimeSlot` (start/end in minutes); `stop` stands for `end`. -/
structure TimeSlot where
  start : Nat
  stop : Nat
deriving DecidableEq, Repr

/-- A busy period returned by the free/busy query, already normalised to
the configured timezone (ISO-8601 parsing elided). -/
structure BusyPeriod where
  start : Nat
  stop : Nat
deriving DecidableEq, Repr

/-- The `while current + slot_duration <= end_time` loop of
`generate_time_slots`.  `step` is `slot_duration + buffer`.  The `0 < step`
conjunct only makes the loop total: Python diverges when
`duration + buffer = 0`, which no claim quantifies over. -/
def slotsLoop (endT dur step : Nat) (current : Nat) : List TimeSlot :=
  if h : current + dur ≤ endT ∧ 0 < step then
    { start := current, stop := current + dur } :: slotsLoop endT dur step (current + step)
  else []
termination_by endT + 1 - current
decreasing_by omega

/-- `generate_time_slots(date, duration_minutes)`: `date` is a day number,
`date.replace(hour=h, minute=m)` is `date * 1440 + h * 60 + m`. -/
def generate_time_slots (cfg : CalendarConfig) (date : Nat) (duration_minutes : Nat) :
    List TimeSlot :=
  if (date % 7) ∈ cfg.available_days then
    slotsLoop
      (date * 1440 + cfg.available_end_hour * 60 + cfg.available_end_minute)
      duration_minutes
      (duration_minutes + cfg.buffer_between_appointments_minutes)
      (date * 1440 + cfg.available_start_hour * 60 + cfg.available_start_minute)
  else []

/-- `filter_available_slots`: keep a slot iff for every busy period
`slot.end <= busy_start or slot.start >= busy_end`. -/
def filter_available_slots (all_slots : List TimeSlot) (busy_periods : List BusyPeriod) :
    List TimeSlot :=
  all_slots.filter fun slot =>
    busy_periods.all fun busy => slot.stop ≤ busy.start || busy.stop ≤ slot.start

/-- `filter_past_slots`: keep slots with `slot.start > now`. -/
def filter_past_slots (slots : List TimeSlot) (now : Nat) : List TimeSlot :=
  slots.filter fun slot => now < slot.start

/-- The natural-language message templates of the availability and booking
responses.  Each constructor stands for one fixed f-string template of the
source; the `strftime` rendering of dates and times is elided. -/
inductive Msg
  | could_not_parse
  | past_date
  | closed_office (weekday : Nat) (available_days : List Nat)
  | no_slots
  | times_shown (shown : List TimeSlot) (extra : Nat)
  | booked_confirm
  | slot_unavailable
  | book_failed (e : List Char)
  | cancelled_done
  | cancel_failed (e : List Char)
  | resched_done
  | resched_slot_unavailable
  | resched_failed (e : List Char)
  | noshow_done
  | noshow_failed (e : List Char)
deriving DecidableEq, Repr

/-- `AvailabilityResponse` (the echoed date string is elided). -/
structure AvailabilityResponse where
  available_slots : List TimeSlot
  message : Msg
deriving DecidableEq, Repr

/-- The Google Calendar service boundary: the store of events keyed by id,
plus one failure oracle per API call so that a claim can quantify over
call outcomes.  `none` means the call works against `events`/`busy`;
`some e` means the call raises an exception carrying message `e`. -/
structure CalendarApi where
  events : List (List Char × CalEvent)
  busy : List BusyPeriod
  freebusy_fails : Option (List Char)
  get_fails : Option (List Char)
  insert_fails : Option (List Char)
  update_fails : Option (List Char)
  insert_id : List Char
deriving DecidableEq, Repr

/-- `service.freebusy().query(...).execute()` as used by
`get_busy_periods`: any failure propagates (there is no `try` in
`get_busy_periods`). -/
def get_busy_periods (api : CalendarApi) : Except (List Char) (List BusyPeriod) :=
  match api.freebusy_fails with
  | some e => Except.error e
  | none => Except.ok api.busy

/-- `service.events().get(...).execute()`: a missing id raises (HTTP 404),
as does a failing call. -/
def apiGet (api : CalendarApi) (eventId : List Char) : Except (List Char) CalEvent :=
  match api.get_fails with
  | some e => Except.error e
  | none =>
    match (api.events.find? fun kv => kv.1 = eventId) with
    | some kv => Except.ok kv.2
    | none => Except.error (strL (r"404 not found"))

/-- `service.events().insert(...).execute()`: on success the created event
(with its fresh id) is returned and stored. -/
def apiInsert (api : CalendarApi) (ev : CalEvent) :
    Except (List Char) (CalendarApi × CalEvent) :=
  match api.insert_fails with
  | some e => Except.error e
  | none =>
    let created := { ev with id := some api.insert_id }
    Except.ok ({ api with events := (api.insert_id, created) :: api.events }, created)

/-- `service.events().update(...).execute()`: replaces the stored event
body under the id and returns the updated resource. -/
def apiUpdate (api : CalendarApi) (eventId : List Char) (ev : CalEvent) :
    Except (List Char) (CalendarApi × CalEvent) :=
  match api.update_fails with
  | some e => Except.error e
  | none =>
    Except.ok
      ({ api with events := api.events.map fun kv => if kv.1 = eventId then (eventId, ev) else kv },
        ev)

/-- `check_availability(date, duration_minutes)`.  String-to-date parsing
is summarised by the `parsed` argument (`Except.error` = `parse_date`
raised `ValueError`); `today` is the current day number and `now` the
current time in minutes.  A failure of the free/busy call propagates. -/
def check_availability (cfg : CalendarConfig) (api : CalendarApi)
    (parsed : Except Unit Nat) (today now : Nat) (duration_minutes : Option Nat) :
    Except (List Char) AvailabilityResponse :=
  let dur := duration_minutes.getD cfg.appointment_duration_minutes
  match parsed with
  | Except.error _ => Except.ok { available_slots := [], message := Msg.could_not_parse }
  | Except.ok date =>
    if date < today then
      Except.ok { available_slots := [], message := Msg.past_date }
    else if (date % 7) ∈ cfg.available_days then
      let all_slots := generate_time_slots cfg date dur
      match get_busy_periods api with
      | Except.error e => Except.error e
      | Except.ok busy =>
        let available := filter_past_slots (filter_available_slots all_slots busy) now
        Except.ok
          { available_slots := available
            message :=
              if available = [] then Msg.no_slots
              else Msg.times_shown (available.take 5) (available.length - 5) }
    else
      Except.ok
        { available_slots := []
          message := Msg.closed_office (date % 7) cfg.available_days }

/-- `is_slot_available(appointment_datetime)`: formats the date back to a
string and re-checks availability (the round-tripped date string always
parses, to the day number of the datetime), then compares slot starts. -/
def is_slot_available (cfg : CalendarConfig) (api : CalendarApi)
    (appointment_datetime today now : Nat) : Except (List Char) Bool :=
  match check_availability cfg api (Except.ok (appointment_datetime / 1440)) today now none with
  | Except.error e => Except.error e
  | Except.ok resp =>
    Except.ok (resp.available_slots.any fun slot => slot.start = appointment_datetime)

/-! ## Appointment lifecycle (src/src/calendar/appointments.py) -/

/-- `BookingResponse`. -/
structure BookingResponse where
  success : Bool
  appointment : Option Appointment
  message : Msg
  confirmation_id : Option (List Char)
deriving DecidableEq, Repr

/-- `book_appointment`: the availability pre-check runs before the
`try`/`except` block, so a free/busy failure propagates (`Except.error`);
only the event-insert call is guarded. -/
def book_appointment (cfg : CalendarConfig) (api : CalendarApi)
    (patient_name patient_phone : List Char) (appointment_datetime : Nat)
    (patient_email : Option (List Char)) (appointment_type : AppointmentType)
    (notes : Option (List Char)) (today now : Nat) :
    Except (List Char) (BookingResponse × CalendarApi) :=
  match is_slot_available cfg api appointment_datetime today now with
  | Except.error e => Except.error e
  | Except.ok false =>
    Except.ok
      ({ success := false, appointment := none, message := Msg.slot_unavailable
         confirmation_id := none }, api)
  | Except.ok true =>
    let patient : Patient :=
      { name := patient_name, phone := patient_phone
        email := patient_email, notes := notes }
    let end_time := appointment_datetime + cfg.appointment_duration_minutes
    let appointment : Appointment :=
      { id := none, patient := patient
        start_time := appointment_datetime, end_time := end_time
        appointment_type := appointment_type, status := AppointmentStatus.scheduled
        reminder_sent := false, created_at := none }
    let event : CalEvent :=
      { id := none
        summary := strL (r"Appointment: ") ++ patient_name
        description := to_calendar_description appointment
        start := appointment_datetime
        stop := end_time
        created := none }
    match apiInsert api event with
    | Except.ok res =>
      Except.ok
        ({ success := true
           appointment := some { appointment with id := res.2.id }
           message := Msg.booked_confirm
           confirmation_id := res.2.id }, res.1)
    | Except.error e =>
      Except.ok
        ({ success := false, appointment := none, message := Msg.book_failed e
           confirmation_id := none }, api)

/-- The summary rewrite performed by `cancel_appointment`:
`event["summary"].replace("Appointment:", "CANCELLED:")`. -/
def cancelSummary (summary : List Char) : List Char :=
  replaceAll (strL (r"Appointment:")) (strL (r"CANCELLED:")) summary

/-- The description rewrite performed by `cancel_appointment`: two chained
`str.replace` calls on the status field. -/
def cancelDescription (description : List Char) : List Char :=
  replaceAll (strL (r"Status: confirmed")) (strL (r"Status: cancelled"))
    (replaceAll (strL (r"Status: scheduled")) (strL (r"Status: cancelled")) description)

/-- `cancel_appointment`: everything after client construction is inside
`try`/`except`, so the result is always a `BookingResponse`; the event is
updated in place, never deleted. -/
def cancel_appointment (api : CalendarApi) (appointment_id : List Char) :
    BookingResponse × CalendarApi :=
  match apiGet api appointment_id with
  | Except.error e =>
    ({ success := false, appointment := none, message := Msg.cancel_failed e
       confirmation_id := none }, api)
  | Except.ok event =>
    let event' :=
      { event with
          description := cancelDescription event.description
          summary := cancelSummary event.summary }
    match apiUpdate api appointment_id event' with
    | Except.error e =>
      ({ success := false, appointment := none, message := Msg.cancel_failed e
         confirmation_id := none }, api)
    | Except.ok res =>
      ({ success := true, appointment := none, message := Msg.cancelled_done
         confirmation_id := none }, res.1)

/-- `reschedule_appointment`: the availability pre-check runs before the
`try`/`except`, so a free/busy failure propagates; the get/update calls and
the decode are guarded. -/
def reschedule_appointment (cfg : CalendarConfig) (api : CalendarApi)
    (appointment_id : List Char) (new_datetime : Nat) (today now : Nat) :
    Except (List Char) (BookingResponse × CalendarApi) :=
  match is_slot_available cfg api new_datetime today now with
  | Except.error e => Except.error e
  | Except.ok false =>
    Except.ok
      ({ success := false, appointment := none, message := Msg.resched_slot_unavailable
         confirmation_id := none }, api)
  | Except.ok true =>
    match apiGet api appointment_id with
    | Except.error e =>
      Except.ok
        ({ success := false, appointment := none, message := Msg.resched_failed e
           confirmation_id := none }, api)
    | Except.ok event =>
      let new_end := new_datetime + cfg.appointment_duration_minutes
      let event' :=
        { event with
            start := new_datetime
            stop := new_end
            description :=
              replaceAll (strL (r"Reminder Sent: true")) (strL (r"Reminder Sent: false"))
                event.description }
      match apiUpdate api appointment_id event' with
      | Except.error e =>
        Except.ok
          ({ success := false, appointment := none, message := Msg.resched_failed e
             confirmation_id := none }, api)
      | Except.ok res =>
        match from_calendar_event res.2 with
        | none =>
          Except.ok
            ({ success := false, appointment := none
               message := Msg.resched_failed (strL (r"ValueError"))
               confirmation_id := none }, res.1)
        | some appointment =>
          Except.ok
            ({ success := true, appointment := some appointment
               message := Msg.resched_done
               confirmation_id := some appointment_id }, res.1)

/-- The summary rewrite performed by `mark_no_show`:
`event["summary"].replace("Appointment:", "NO SHOW:")`. -/
def noShowSummary (summary : List Char) : List Char :=
  replaceAll (strL (r"Appointment:")) (strL (r"NO SHOW:")) summary

/-- `mark_no_show`: like cancel, fully guarded, update in place. -/
def mark_no_show (api : CalendarApi) (appointment_id : List Char) :
    BookingResponse × CalendarApi :=
  match apiGet api appointment_id with
  | Except.error e =>
    ({ success := false, appointment := none, message := Msg.noshow_failed e
       confirmation_id := none }, api)
  | Except.ok event =>
    let event' :=
      { event with
          description :=
            replaceAll (strL (r"Status: confirmed")) (strL (r"Status: no_show"))
              (replaceAll (strL (r"Status: scheduled")) (strL (r"Status: no_show"))
                event.description)
          summary := noShowSummary event.summary }
    match apiUpdate api appointment_id event' with
    | Except.error e =>
      ({ success := false, appointment := none, message := Msg.noshow_failed e
         confirmation_id := none }, api)
    | Except.ok res =>
      ({ success := true, appointment := none, message := Msg.noshow_done
         confirmation_id := none }, res.1)

/-! ## DB-backed cancel (src/calendar_service.py, `cancel_appointment`) -/

/-- A row of the local `Appointment` table, restricted to the columns the
root service's `cancel_appointment` touches. -/
structure DbAppointment where
  id : List Char
  doctor_id : List Char
  status : List Char
  calendar_event_id : Option (List Char)
deriving DecidableEq, Repr

/-- A request sent by the backend proxy to the calendar MCP server.  The
MCP call itself is stubbed in the source (it only logs and returns a
success dict), so only the issued operation is recorded. -/
inductive McpOp
  | delete_event (event_id : List Char)
deriving DecidableEq, Repr

/-- The state the root service's `cancel_appointment` works over: the local
appointment rows plus the external calendar's events (which the stubbed
MCP call never mutates). -/
structure DbState where
  appointments : List DbAppointment
  events : List (List Char × CalEvent)
deriving DecidableEq, Repr

/-- Result dict of the root service's `cancel_appointment`. -/
structure DbCancelResult where
  success : Bool
  message_or_error : List Char
deriving DecidableEq, Repr

/-- `cancel_appointment(user_id, db, appointment_id)` from
src/calendar_service.py: looks the row up scoped by doctor, issues a
`delete_event` MCP request for the linked calendar event (it never relabels
the event), then sets the local row's status to `"cancelled"`.  Returns the
result, the new state, and the list of MCP requests issued. -/
def dbCancelAppointment (user_id : List Char) (st : DbState) (appointment_id : List Char) :
    DbCancelResult × DbState × List McpOp :=
  match st.appointments.find? fun a => a.id = appointment_id ∧ a.doctor_id = user_id with
  | none =>
    ({ success := false, message_or_error := strL (r"Appointment not found") }, st, [])
  | some appt =>
    let ops :=
      match appt.calendar_event_id with
      | some evId => [McpOp.delete_event evId]
      | none => []
    let st' :=
      { st with
          appointments := st.appointments.map fun a =>
            if a.id = appointment_id ∧ a.doctor_id = user_id then
              { a with status := strL (r"cancelled") }
            else a }
    ({ success := true, message_or_error := strL (r"Appointment cancelled") }, st', ops)

/-! ## Credential proxy (src/src/auth/service.py) -/

/-- The cached OAuth token blob `user.google_oauth_token` (JSON encoding
elided; `expiry` in minutes since epoch). -/
structure OAuthToken where
  access_token : List Char
  refresh_token : Option (List Char)
  expiry : Option Nat
  scopes : List (List Char)
deriving DecidableEq, Repr

/-- The columns of the `User` row that the token functions read/write. -/
structure AuthUser where
  google_oauth_token : Option OAuthToken
  google_token_expiry : Option Nat
  google_refresh_token : Option (List Char)
deriving DecidableEq, Repr

/-- Outcome of `credentials.refresh(request)` against the OAuth provider:
a new access token, its expiry, and scopes, or a raised exception. -/
structure RefreshOutcome where
  token : List Char
  expiry : Option Nat
  scopes : List (List Char)
deriving DecidableEq, Repr

/-- `refresh_user_oauth_token(db, user_id)`: returns the success flag and
the (possibly updated) user row.  On success the persisted blob carries the
provider's new access token and expiry while the stored refresh token is
carried over unchanged. -/
def refresh_user_oauth_token (user : Option AuthUser)
    (provider : Except (List Char) RefreshOutcome) : Bool × Option AuthUser :=
  match user with
  | none => (false, none)
  | some u =>
    match u.google_refresh_token with
    | none => (false, some u)
    | some rt =>
      match provider with
      | Except.error _ => (false, some u)
      | Except.ok r =>
        let token_data : OAuthToken :=
          { access_token := r.token
            refresh_token := some rt
            expiry := r.expiry
            scopes := r.scopes }
        (true, some { u with
          google_oauth_token := some token_data
          google_token_expiry := r.expiry })

/-- `get_user_oauth_token(db, user_id)`: returns the token dict (or `None`)
and the possibly updated user row.  `now` is `datetime.utcnow()` in
minutes.  When the cached expiry has passed, a refresh is attempted and on
success the re-read persisted blob is returned; on failure `None`. -/
def get_user_oauth_token (user : Option AuthUser) (now : Nat)
    (provider : Except (List Char) RefreshOutcome) :
    Option OAuthToken × Option AuthUser :=
  match user with
  | none => (none, none)
  | some u =>
    match u.google_oauth_token with
    | none => (none, some u)
    | some token_data =>
      match u.google_token_expiry with
      | some exp =>
        if exp ≤ now then
          match refresh_user_oauth_token (some u) provider with
          | (true, u') => (u'.bind fun w => w.google_oauth_token, u')
          | (false, u') => (none, u')
        else (some token_data, some u)
      | none => (some token_data, some u)

/-! ## Date resolution (src/src/calendar/availability.py, `parse_date`) -/

/-- The weekday-name list used by the `"next <weekday>"` branch; its order
matches Python's `date.weekday()` numbering (Monday = 0). -/
def weekdayNames : List (List Char) :=
  [strL (r"monday"), strL (r"tuesday"), strL (r"wednesday"), strL (r"thursday"),
    strL (r"friday"), strL (r"saturday"), strL (r"sunday")]

/-- The natural-language branch of `parse_date` applied to an already
lowercased and stripped input; `today` is the current day number.  The
numeric `strptime` fall-through is elided (`none` = not resolved by this
branch). -/
def parse_date_nl (date_string : List Char) (today : Nat) : Option Nat :=
  if date_string = strL (r"today") then some today
  else if date_string = strL (r"tomorrow") then some (today + 1)
  else if (strL (r"next ")).isPrefixOf date_string then
    let day_name := replaceAll (strL (r"next ")) [] date_string
    match idxOf weekdayNames day_name with
    | some target_day =>
      let current_day : Int := ((today % 7 : Nat) : Int)
      let days_ahead : Int := ((target_day : Nat) : Int) - current_day
      let days_ahead := if days_ahead ≤ 0 then days_ahead + 7 else days_ahead
      some (today + days_ahead.toNat)
    | none => none
  else none

/-- A calendar-event description whose `Type:` line carries an arbitrary
value `v` (used to probe the decoder against hand-edited events). -/
def descWithType (v : List Char) : List Char :=
  strL (r"Patient: Ann") ++ nl ::
  (strL (r"Phone: 123") ++ nl ::
  (strL (r"Type: ") ++ v ++ nl ::
  strL (r"Status: scheduled")))

/-- A calendar-event description whose `Status:` line carries an arbitrary
value `w` (used to probe the decoder against hand-edited events). -/
def descWithStatus (w : List Char) : List Char :=
  strL (r"Patient: Ann") ++ nl ::
  (strL (r"Phone: 123") ++ nl ::
  (strL (r"Status: ") ++ w))

/-- A concrete appointment used by witnesses. -/
def apptW : Appointment :=
  { id := some (strL (r"e1"))
    patient := { name := strL (r"Bob"), phone := strL (r"5")
                 email := none, notes := none }
    start_time := 540, end_time := 570
    appointment_type := AppointmentType.checkup
    status := AppointmentStatus.scheduled
    reminder_sent := false, created_at := none }

/-- The stored calendar event encoding `apptW`, used by witnesses. -/
def evW : CalEvent :=
  { id := some (strL (r"e1")), summary := strL (r"Appointment: Bob")
    description := to_calendar_description apptW
    start := 540, stop := 570, created := none }

/-- A concrete calendar-service state holding `evW`, used by witnesses. -/
def apiW : CalendarApi :=
  { events := [(strL (r"e1"), evW)]
    busy := [], freebusy_fails := none, get_fails := none, insert_fails := none
    update_fails := none, insert_id := strL (r"z") }

/-- A concrete configuration used by witnesses: open every weekday,
09:00-17:00, 30-minute slots, no buffer. -/
def cfgW : CalendarConfig :=
  { available_days := [0, 1, 2, 3, 4, 5, 6]
    available_start_hour := 9, available_start_minute := 0
    available_end_hour := 17, available_end_minute := 0
    appointment_duration_minutes := 30
    buffer_between_appointments_minutes := 0 }

/-- A concrete configuration with a short 09:00-10:00 window. -/
def cfgN : CalendarConfig :=
  { available_days := [0, 1, 2, 3, 4, 5, 6]
    available_start_hour := 9, available_start_minute := 0
    available_end_hour := 10, available_end_minute := 0
    appointment_duration_minutes := 30
    buffer_between_appointments_minutes := 0 }

/-- An appointment whose notes field smuggles a second line into the event
description (the notes text contains a newline followed by a spoofed
`Reminder Sent: TRUE` line). -/
def apptN : Appointment :=
  { id := some (strL (r"e1"))
    patient := { name := strL (r"B"), phone := strL (r"1")
                 email := none
                 notes := some (strL (r"x") ++ nl :: strL (r"Reminder Sent: TRUE")) }
    start_time := 540, end_time := 570
    appointment_type := AppointmentType.checkup
    status := AppointmentStatus.scheduled
    reminder_sent := false, created_at := none }

/-- The stored calendar event encoding `apptN`. -/
def evN : CalEvent :=
  { id := some (strL (r"e1")), summary := strL (r"Appointment: B")
    description := to_calendar_description apptN
    start := 540, stop := 570, created := none }

/-- A concrete calendar-service state holding `evN`. -/
def apiN : CalendarApi :=
  { events := [(strL (r"e1"), evN)]
    busy := [], freebusy_fails := none, get_fails := none, insert_fails := none
    update_fails := none, insert_id := strL (r"z") }

/-! ## Lemmas about the string primitives -/

theorem splitOnChar_ne_nil (c : Char) (s : List Char) : splitOnChar c s ≠ [] := by
  cases s with
  | nil => simp [splitOnChar]
  | cons x xs =>
    by_cases hx : x = c
    · simp [splitOnChar, hx]
    · simp only [splitOnChar, if_neg hx]
      cases h : splitOnChar c xs <;> simp

theorem splitOnChar_of_not_mem {c : Char} :
    ∀ {xs : List Char}, c ∉ xs → splitOnChar c xs = [xs] := by
  intro xs
  induction xs with
  | nil => intro _; rfl
  | cons x xs ih =>
    intro h
    have hx : ¬ x = c := fun he => h (by simp [he])
    have hxs : c ∉ xs := fun hm => h (by simp [hm])
    simp [splitOnChar, hx, ih hxs]

theorem splitOnChar_append {c : Char} :
    ∀ {xs : List Char} (ys : List Char), c ∉ xs →
      splitOnChar c (xs ++ c :: ys) = xs :: splitOnChar c ys := by
  intro xs
  induction xs with
  | nil => intro ys _; simp [splitOnChar]
  | cons x xs ih =>
    intro ys h
    have hx : ¬ x = c := fun he => h (by simp [he])
    have hxs : c ∉ xs := fun hm => h (by simp [hm])
    simp only [List.cons_append, splitOnChar, if_neg hx, List.append_eq, ih ys hxs]

theorem isPrefixOf_append_cons {c : Char} :
    ∀ {pat : List Char}, c ∉ pat →
      ∀ (a b : List Char), pat.isPrefixOf (a ++ c :: b) = pat.isPrefixOf a := by
  intro pat
  induction pat with
  | nil => intro _ a b; simp
  | cons p ps ih =>
    intro h a b
    have hp : ¬ p = c := fun he => h (by simp [he])
    have hps : c ∉ ps := fun hm => h (by simp [hm])
    cases a with
    | nil =>
      simp only [List.nil_append, List.isPrefixOf_cons_nil]
      simp [List.isPrefixOf_cons₂, hp]
    | cons x a' =>
      simp only [List.cons_append, List.isPrefixOf_cons₂, ih hps a' b]

theorem isPrefixOf_append_self : ∀ (p t : List Char), p.isPrefixOf (p ++ t) = true := by
  intro p
  induction p with
  | nil => intro t; simp
  | cons a p ih => intro t; simp [List.isPrefixOf_cons₂, ih]

theorem lengthLe_of_isPrefixOf :
    ∀ {p l : List Char}, p.isPrefixOf l = true → p.length ≤ l.length := by
  intro p
  induction p with
  | nil => intro l _; simp
  | cons a p ih =>
    intro l h
    cases l with
    | nil => simp at h
    | cons b l =>
      simp only [List.isPrefixOf_cons₂, Bool.and_eq_true, beq_iff_eq] at h
      simpa using Nat.succ_le_succ (ih h.2)

theorem splitFirst_cs :
    ∀ {k : List Char} (v : List Char), ':' ∉ k →
      splitFirst (strL (r": ")) (k ++ ':' :: ' ' :: v) = some (k, v) := by
  intro k
  induction k with
  | nil =>
    intro v _
    show splitFirst [':', ' '] (':' :: ' ' :: v) = some ([], v)
    simp [splitFirst]
  | cons x k' ih =>
    intro v h
    have hx : ¬ ':' = x := fun he => h (by simp [he.symm])
    have hk : ':' ∉ k' := fun hm => h (by simp [hm])
    show splitFirst [':', ' '] ((x :: k') ++ ':' :: ' ' :: v) = some (x :: k', v)
    have hpre : List.isPrefixOf [':', ' '] (x :: (k' ++ ':' :: ' ' :: v)) = false := by
      simp [List.isPrefixOf_cons₂, hx]
    simp only [List.cons_append, splitFirst, List.append_eq, hpre, Bool.false_eq_true, if_false]
    rw [show splitFirst [':', ' '] (k' ++ ':' :: ' ' :: v)
        = splitFirst (strL (r": ")) (k' ++ ':' :: ' ' :: v) from rfl, ih v hk]

theorem replaceAll_nil_pat (repl : List Char) : ∀ (s : List Char), replaceAll [] repl s = s := by
  intro s
  induction s with
  | nil => simp [replaceAll]
  | cons x xs ih => simp [replaceAll, ih]

theorem replaceAll_cons_of_not_match {pat repl : List Char} {x : Char} {xs : List Char}
    (h : pat.isPrefixOf (x :: xs) = false) :
    replaceAll pat repl (x :: xs) = x :: replaceAll pat repl xs := by
  cases pat with
  | nil => simp at h
  | cons p ps => simp [replaceAll, h]

theorem replaceAll_cons_of_isPrefixOf {p : Char} {ps repl : List Char} {x : Char} {xs : List Char}
    (h : (p :: ps).isPrefixOf (x :: xs) = true) :
    replaceAll (p :: ps) repl (x :: xs) = repl ++ replaceAll (p :: ps) repl (List.drop ps.length xs) := by
  simp [replaceAll, h]

theorem replaceAll_of_match {p : Char} {ps repl : List Char} (rest : List Char) :
    replaceAll (p :: ps) repl ((p :: ps) ++ rest) = repl ++ replaceAll (p :: ps) repl rest := by
  have h : (p :: ps).isPrefixOf (p :: (ps ++ rest)) = true := isPrefixOf_append_self (p :: ps) rest
  rw [show (p :: ps) ++ rest = p :: (ps ++ rest) from rfl, replaceAll_cons_of_isPrefixOf h]
  simp

theorem replaceAll_of_not_contains {pat repl : List Char} :
    ∀ {s : List Char}, containsSub pat s = false → replaceAll pat repl s = s := by
  intro s
  induction s with
  | nil => intro _; simp [replaceAll]
  | cons x xs ih =>
    intro h
    simp only [containsSub, Bool.or_eq_false_iff] at h
    rw [replaceAll_cons_of_not_match h.1, ih h.2]

theorem mem_replaceAll {pat repl : List Char} {y : Char} :
    ∀ (s : List Char), y ∈ replaceAll pat repl s → y ∈ s ∨ y ∈ repl := by
  suffices H : ∀ (n : Nat) (s : List Char), s.length ≤ n →
      y ∈ replaceAll pat repl s → y ∈ s ∨ y ∈ repl by
    intro s
    exact H s.length s le_rfl
  intro n
  induction n with
  | zero =>
    intro s hs hy
    have : s = [] := List.length_eq_zero.mp (Nat.le_zero.mp hs)
    subst this
    simp [replaceAll] at hy
  | succ n ih =>
    intro s hs hy
    cases s with
    | nil => simp [replaceAll] at hy
    | cons x xs =>
      cases pat with
      | nil =>
        rw [replaceAll_nil_pat] at hy
        exact Or.inl hy
      | cons p ps =>
        cases hp : (p :: ps).isPrefixOf (x :: xs) with
        | true =>
          rw [replaceAll_cons_of_isPrefixOf hp] at hy
          rcases List.mem_append.mp hy with hrep | hrec
          · exact Or.inr hrep
          · have hlen : (List.drop ps.length xs).length ≤ n := by
              have := List.length_drop ps.length xs
              simp only [List.length_cons] at hs
              omega
            rcases ih _ hlen hrec with hmem | hrep
            · exact Or.inl (List.mem_cons_of_mem x (List.mem_of_mem_drop hmem))
            · exact Or.inr hrep
        | false =>
          rw [replaceAll_cons_of_not_match hp] at hy
          rcases List.mem_cons.mp hy with hx | hrec
          · exact Or.inl (by simp [hx])
          · have hlen : xs.length ≤ n := by
              simp only [List.length_cons] at hs
              omega
            rcases ih xs hlen hrec with hmem | hrep
            · exact Or.inl (List.mem_cons_of_mem x hmem)
            · exact Or.inr hrep

theorem replaceAll_append_cons {pat repl : List Char} {c : Char} (hc : c ∉ pat) :
    ∀ (a b : List Char),
      replaceAll pat repl (a ++ c :: b) = replaceAll pat repl a ++ c :: replaceAll pat repl b := by
  suffices H : ∀ (n : Nat) (a b : List Char), a.length ≤ n →
      replaceAll pat repl (a ++ c :: b) = replaceAll pat repl a ++ c :: replaceAll pat repl b by
    intro a b
    exact H a.length a b le_rfl
  intro n
  induction n with
  | zero =>
    intro a b hlen
    have : a = [] := List.length_eq_zero.mp (Nat.le_zero.mp hlen)
    subst this
    cases pat with
    | nil => simp [replaceAll_nil_pat]
    | cons p ps =>
      have hp : ¬ p = c := fun he => hc (by simp [he])
      have hpre : (p :: ps).isPrefixOf (c :: b) = false := by
        simp [List.isPrefixOf_cons₂, hp]
      simp only [List.nil_append, replaceAll_cons_of_not_match hpre]
      simp [replaceAll]
  | succ n ih =>
    intro a b hlen
    cases a with
    | nil =>
      cases pat with
      | nil => simp [replaceAll_nil_pat]
      | cons p ps =>
        have hp : ¬ p = c := fun he => hc (by simp [he])
        have hpre : (p :: ps).isPrefixOf (c :: b) = false := by
          simp [List.isPrefixOf_cons₂, hp]
        simp only [List.nil_append, replaceAll_cons_of_not_match hpre]
        simp [replaceAll]
    | cons x a' =>
      cases pat with
      | nil => simp [replaceAll_nil_pat]
      | cons p ps =>
        have heq : (x :: a') ++ c :: b = x :: (a' ++ c :: b) := rfl
        have hiff := isPrefixOf_append_cons hc (x :: a') b
        cases hp : (p :: ps).isPrefixOf (x :: a') with
        | true =>
          have hp' : (p :: ps).isPrefixOf (x :: (a' ++ c :: b)) = true := by
            rw [← heq, hiff]; exact hp
          have hlenp : (p :: ps).length ≤ (x :: a').length := lengthLe_of_isPrefixOf hp
          have hps : ps.length ≤ a'.length := by
            simp only [List.length_cons] at hlenp
            omega
          rw [heq, replaceAll_cons_of_isPrefixOf hp', replaceAll_cons_of_isPrefixOf hp]
          rw [List.drop_append_of_le_length hps]
          rw [ih (List.drop ps.length a') b (by
            have := List.length_drop ps.length a'
            simp only [List.length_cons] at hlen
            omega)]
          simp [List.append_assoc]
        | false =>
          have hp' : (p :: ps).isPrefixOf (x :: (a' ++ c :: b)) = false := by
            rw [← heq, hiff]; exact hp
          rw [heq, replaceAll_cons_of_not_match hp', replaceAll_cons_of_not_match hp]
          rw [ih a' b (by simp only [List.length_cons] at hlen; omega)]
          simp

theorem replaceAll_header {p : Char} {ps repl : List Char} :
    ∀ {hdr : List Char} (v : List Char), p ∉ hdr →
      replaceAll (p :: ps) repl (hdr ++ v) = hdr ++ replaceAll (p :: ps) repl v := by
  intro hdr
  induction hdr with
  | nil => intro v _; simp
  | cons x h' ih =>
    intro v h
    have hx : ¬ p = x := fun he => h (by simp [he])
    have hh : p ∉ h' := fun hm => h (by simp [hm])
    have hpre : (p :: ps).isPrefixOf (x :: (h' ++ v)) = false := by
      simp [List.isPrefixOf_cons₂, hx]
    rw [show (x :: h') ++ v = x :: (h' ++ v) from rfl, replaceAll_cons_of_not_match hpre, ih v hh]
    rfl

theorem replaceAll_single (c d : Char) :
    ∀ (s : List Char), replaceAll [c] [d] s = s.map fun x => if x = c then d else x := by
  intro s
  induction s with
  | nil => simp [replaceAll]
  | cons x xs ih =>
    by_cases hx : x = c
    · subst hx
      have hpre : [x].isPrefixOf (x :: xs) = true := by simp [List.isPrefixOf_cons₂]
      rw [replaceAll_cons_of_isPrefixOf hpre]
      simp [ih]
    · have hpre : [c].isPrefixOf (x :: xs) = false := by
        simp [List.isPrefixOf_cons₂]
        exact fun he => hx he.symm
      rw [replaceAll_cons_of_not_match hpre, ih]
      simp [hx]

/-! ## Lemmas about the encoder/decoder -/

theorem nl_not_mem_typeValue : ∀ (t : AppointmentType), nl ∉ typeValue t := by
  intro t; cases t <;> decide

theorem nl_not_mem_statusValue : ∀ (s : AppointmentStatus), nl ∉ statusValue s := by
  intro s; cases s <;> decide

theorem description_lines (a : Appointment)
    (h1 : nl ∉ a.patient.name) (h2 : nl ∉ a.patient.phone)
    (h3 : nl ∉ orDefault a.patient.email (strL (r"N/A")))
    (h4 : nl ∉ orDefault a.patient.notes (strL (r"None"))) :
    splitOnChar nl (to_calendar_description a) =
      [strL (r"Patient: ") ++ a.patient.name,
       strL (r"Phone: ") ++ a.patient.phone,
       strL (r"Email: ") ++ orDefault a.patient.email (strL (r"N/A")),
       strL (r"Type: ") ++ typeValue a.appointment_type,
       strL (r"Status: ") ++ statusValue a.status,
       strL (r"Reminder Sent: ") ++ (if a.reminder_sent then strL (r"true") else strL (r"false")),
       strL (r"Notes: ") ++ orDefault a.patient.notes (strL (r"None"))] := by
  have e1 : nl ∉ strL (r"Patient: ") ++ a.patient.name := by
    intro hm
    rcases List.mem_append.mp hm with h | h
    · exact absurd h (by decide)
    · exact h1 h
  have e2 : nl ∉ strL (r"Phone: ") ++ a.patient.phone := by
    intro hm
    rcases List.mem_append.mp hm with h | h
    · exact absurd h (by decide)
    · exact h2 h
  have e3 : nl ∉ strL (r"Email: ") ++ orDefault a.patient.email (strL (r"N/A")) := by
    intro hm
    rcases List.mem_append.mp hm with h | h
    · exact absurd h (by decide)
    · exact h3 h
  have e4 : nl ∉ strL (r"Type: ") ++ typeValue a.appointment_type := by
    intro hm
    rcases List.mem_append.mp hm with h | h
    · exact absurd h (by decide)
    · exact nl_not_mem_typeValue _ h
  have e5 : nl ∉ strL (r"Status: ") ++ statusValue a.status := by
    intro hm
    rcases List.mem_append.mp hm with h | h
    · exact absurd h (by decide)
    · exact nl_not_mem_statusValue _ h
  have e6 : nl ∉ strL (r"Reminder Sent: ")
      ++ (if a.reminder_sent then strL (r"true") else strL (r"false")) := by
    intro hm
    rcases List.mem_append.mp hm with h | h
    · exact absurd h (by decide)
    · revert h
      split
      · exact fun h => absurd h (by decide)
      · exact fun h => absurd h (by decide)
  have e7 : nl ∉ strL (r"Notes: ") ++ orDefault a.patient.notes (strL (r"None")) := by
    intro hm
    rcases List.mem_append.mp hm with h | h
    · exact absurd h (by decide)
    · exact h4 h
  rw [show to_calendar_description a =
      (strL (r"Patient: ") ++ a.patient.name) ++ nl ::
      ((strL (r"Phone: ") ++ a.patient.phone) ++ nl ::
      ((strL (r"Email: ") ++ orDefault a.patient.email (strL (r"N/A"))) ++ nl ::
      ((strL (r"Type: ") ++ typeValue a.appointment_type) ++ nl ::
      ((strL (r"Status: ") ++ statusValue a.status) ++ nl ::
      ((strL (r"Reminder Sent: ")
          ++ (if a.reminder_sent then strL (r"true") else strL (r"false"))) ++ nl ::
      (strL (r"Notes: ") ++ orDefault a.patient.notes (strL (r"None")))))))) from rfl]
  rw [splitOnChar_append _ e1, splitOnChar_append _ e2, splitOnChar_append _ e3,
    splitOnChar_append _ e4, splitOnChar_append _ e5, splitOnChar_append _ e6,
    splitOnChar_of_not_mem e7]

theorem splitFirst_patient (v : List Char) :
    splitFirst (strL (r": ")) (strL (r"Patient: ") ++ v) = some (strL (r"Patient"), v) := by
  rw [show strL (r"Patient: ") ++ v = strL (r"Patient") ++ ':' :: ' ' :: v from rfl]
  exact splitFirst_cs v (by decide)

theorem splitFirst_phone (v : List Char) :
    splitFirst (strL (r": ")) (strL (r"Phone: ") ++ v) = some (strL (r"Phone"), v) := by
  rw [show strL (r"Phone: ") ++ v = strL (r"Phone") ++ ':' :: ' ' :: v from rfl]
  exact splitFirst_cs v (by decide)

theorem splitFirst_email (v : List Char) :
    splitFirst (strL (r": ")) (strL (r"Email: ") ++ v) = some (strL (r"Email"), v) := by
  rw [show strL (r"Email: ") ++ v = strL (r"Email") ++ ':' :: ' ' :: v from rfl]
  exact splitFirst_cs v (by decide)

theorem splitFirst_type (v : List Char) :
    splitFirst (strL (r": ")) (strL (r"Type: ") ++ v) = some (strL (r"Type"), v) := by
  rw [show strL (r"Type: ") ++ v = strL (r"Type") ++ ':' :: ' ' :: v from rfl]
  exact splitFirst_cs v (by decide)

theorem splitFirst_status (v : List Char) :
    splitFirst (strL (r": ")) (strL (r"Status: ") ++ v) = some (strL (r"Status"), v) := by
  rw [show strL (r"Status: ") ++ v = strL (r"Status") ++ ':' :: ' ' :: v from rfl]
  exact splitFirst_cs v (by decide)

theorem splitFirst_reminder (v : List Char) :
    splitFirst (strL (r": ")) (strL (r"Reminder Sent: ") ++ v)
      = some (strL (r"Reminder Sent"), v) := by
  rw [show strL (r"Reminder Sent: ") ++ v = strL (r"Reminder Sent") ++ ':' :: ' ' :: v from rfl]
  exact splitFirst_cs v (by decide)

theorem splitFirst_notes (v : List Char) :
    splitFirst (strL (r": ")) (strL (r"Notes: ") ++ v) = some (strL (r"Notes"), v) := by
  rw [show strL (r"Notes: ") ++ v = strL (r"Notes") ++ ':' :: ' ' :: v from rfl]
  exact splitFirst_cs v (by decide)

theorem normKey_patient :
    replaceAll (strL (r" ")) (strL (r"_")) (toLowerL (strL (r"Patient"))) = strL (r"patient") := by
  rw [show strL (r" ") = [' '] from rfl, show strL (r"_") = ['_'] from rfl, replaceAll_single]
  decide

theorem normKey_phone :
    replaceAll (strL (r" ")) (strL (r"_")) (toLowerL (strL (r"Phone"))) = strL (r"phone") := by
  rw [show strL (r" ") = [' '] from rfl, show strL (r"_") = ['_'] from rfl, replaceAll_single]
  decide

theorem normKey_email :
    replaceAll (strL (r" ")) (strL (r"_")) (toLowerL (strL (r"Email"))) = strL (r"email") := by
  rw [show strL (r" ") = [' '] from rfl, show strL (r"_") = ['_'] from rfl, replaceAll_single]
  decide

theorem normKey_type :
    replaceAll (strL (r" ")) (strL (r"_")) (toLowerL (strL (r"Type"))) = strL (r"type") := by
  rw [show strL (r" ") = [' '] from rfl, show strL (r"_") = ['_'] from rfl, replaceAll_single]
  decide

theorem normKey_status :
    replaceAll (strL (r" ")) (strL (r"_")) (toLowerL (strL (r"Status"))) = strL (r"status") := by
  rw [show strL (r" ") = [' '] from rfl, show strL (r"_") = ['_'] from rfl, replaceAll_single]
  decide

theorem normKey_reminder :
    replaceAll (strL (r" ")) (strL (r"_")) (toLowerL (strL (r"Reminder Sent")))
      = strL (r"reminder_sent") := by
  rw [show strL (r" ") = [' '] from rfl, show strL (r"_") = ['_'] from rfl, replaceAll_single]
  decide

theorem normKey_notes :
    replaceAll (strL (r" ")) (strL (r"_")) (toLowerL (strL (r"Notes"))) = strL (r"notes") := by
  rw [show strL (r" ") = [' '] from rfl, show strL (r"_") = ['_'] from rfl, replaceAll_single]
  decide

theorem parseDescription_encode (a : Appointment)
    (h1 : nl ∉ a.patient.name) (h2 : nl ∉ a.patient.phone)
    (h3 : nl ∉ orDefault a.patient.email (strL (r"N/A")))
    (h4 : nl ∉ orDefault a.patient.notes (strL (r"None"))) :
    parseDescription (to_calendar_description a) =
      [(strL (r"patient"), a.patient.name),
       (strL (r"phone"), a.patient.phone),
       (strL (r"email"), orDefault a.patient.email (strL (r"N/A"))),
       (strL (r"type"), typeValue a.appointment_type),
       (strL (r"status"), statusValue a.status),
       (strL (r"reminder_sent"), if a.reminder_sent then strL (r"true") else strL (r"false")),
       (strL (r"notes"), orDefault a.patient.notes (strL (r"None")))] := by
  unfold parseDescription
  rw [description_lines a h1 h2 h3 h4]
  simp only [List.filterMap_cons, List.filterMap_nil,
    splitFirst_patient, splitFirst_phone, splitFirst_email, splitFirst_type,
    splitFirst_status, splitFirst_reminder, splitFirst_notes,
    normKey_patient, normKey_phone, normKey_email, normKey_type,
    normKey_status, normKey_reminder, normKey_notes]

theorem typeOfValue_typeValue : ∀ (t : AppointmentType), typeOfValue (typeValue t) = some t := by
  intro t; cases t <;> decide

theorem statusOfValue_statusValue :
    ∀ (s : AppointmentStatus), statusOfValue (statusValue s) = some s := by
  intro s; cases s <;> decide

/-- C1 (amended): decoding the calendar event produced by encoding an
appointment returns the appointment unchanged, for every appointment whose
patient name and phone are newline-free and whose optional email/notes, when
present, are newline-free, non-empty, and distinct from the literal
sentinels `N/A` / `None` that the encoder uses for absent values. -/
theorem c1_roundtrip_amended (a : Appointment)
    (hname : nl ∉ a.patient.name) (hphone : nl ∉ a.patient.phone)
    (hemail : ∀ e, a.patient.email = some e → nl ∉ e ∧ e ≠ [] ∧ e ≠ strL (r"N/A"))
    (hnotes : ∀ m, a.patient.notes = some m → nl ∉ m ∧ m ≠ [] ∧ m ≠ strL (r"None")) :
    from_calendar_event (encodeEvent a) = some a := by
  have hev : nl ∉ orDefault a.patient.email (strL (r"N/A")) := by
    cases he : a.patient.email with
    | none => simp only [orDefault]; decide
    | some e =>
      rcases hemail e he with ⟨hn, hne, _⟩
      simpa [orDefault, hne] using hn
  have hnv : nl ∉ orDefault a.patient.notes (strL (r"None")) := by
    cases hn : a.patient.notes with
    | none => simp only [orDefault]; decide
    | some m =>
      rcases hnotes m hn with ⟨hm, hme, _⟩
      simpa [orDefault, hme] using hm
  have hparsed := parseDescription_encode a hname hphone hev hnv
  simp only [from_calendar_event, encodeEvent]
  simp only [hparsed]
  simp +decide only [lookupKey, Option.getD_some, if_true, if_false]
  simp only [typeOfValue_typeValue, statusOfValue_statusValue]
  obtain ⟨id, ⟨nm, ph, em, no⟩, st, en, ty, stt, rem, cr⟩ := a
  simp only [Option.some.injEq, Appointment.mk.injEq, Patient.mk.injEq, and_true, true_and]
  refine ⟨⟨?_, ?_⟩, ?_⟩
  · cases he : em with
    | none => simp [orDefault]
    | some e =>
      rcases hemail e (by simpa using he) with ⟨_, hne, hna⟩
      simp [orDefault, hne, hna]
  · cases hn : no with
    | none => simp [orDefault]
    | some m =>
      rcases hnotes m (by simpa using hn) with ⟨_, hme, hmn⟩
      simp [orDefault, hme, hmn]
  · cases rem <;> rfl

/-! ## Lemmas about the slot generator -/

theorem mem_slotsLoop {endT dur step : Nat} (hstep : 0 < step) :
    ∀ (cur : Nat) (s : TimeSlot),
      s ∈ slotsLoop endT dur step cur ↔
        ∃ i, s = { start := cur + i * step, stop := cur + i * step + dur }
          ∧ cur + i * step + dur ≤ endT := by
  suffices H : ∀ (n cur : Nat), endT + 1 - cur ≤ n → ∀ (s : TimeSlot),
      s ∈ slotsLoop endT dur step cur ↔
        ∃ i, s = { start := cur + i * step, stop := cur + i * step + dur }
          ∧ cur + i * step + dur ≤ endT by
    intro cur s
    exact H (endT + 1 - cur) cur le_rfl s
  intro n
  induction n with
  | zero =>
    intro cur hn s
    have hcur : endT < cur := by omega
    rw [slotsLoop]
    rw [dif_neg (by omega)]
    simp only [List.not_mem_nil, false_iff, not_exists, not_and]
    intro i hs hle
    have h1 : cur + dur ≤ cur + i * step + dur := by
      generalize i * step = k
      omega
    omega
  | succ n ih =>
    intro cur hn s
    rw [slotsLoop]
    by_cases hc : cur + dur ≤ endT
    · rw [dif_pos ⟨hc, hstep⟩]
      have hrec := ih (cur + step) (by omega) s
      simp only [List.mem_cons, hrec]
      constructor
      · rintro (hhead | ⟨i, hs, hle⟩)
        · exact ⟨0, by simp [hhead], by simpa using hc⟩
        · refine ⟨i + 1, ?_, ?_⟩
          · rw [hs]
            have : cur + step + i * step = cur + (i + 1) * step := by ring
            simp [this]
          · have : cur + step + i * step = cur + (i + 1) * step := by ring
            omega
      · rintro ⟨i, hs, hle⟩
        cases i with
        | zero =>
          left
          simpa using hs
        | succ i =>
          right
          refine ⟨i, ?_, ?_⟩
          · rw [hs]
            have : cur + step + i * step = cur + (i + 1) * step := by ring
            simp [this]
          · have : cur + step + i * step = cur + (i + 1) * step := by ring
            omega
    · rw [dif_neg (by intro hh; exact hc hh.1)]
      simp only [List.not_mem_nil, false_iff, not_exists, not_and]
      intro i hs hle
      have h1 : cur + dur ≤ cur + i * step + dur := by
        generalize i * step = k
        omega
      omega

theorem pairwise_slotsLoop (endT dur step : Nat) (hstep : 0 < step) :
    ∀ (cur : Nat),
      List.Pairwise (fun a b : TimeSlot => a.start < b.start) (slotsLoop endT dur step cur) := by
  suffices H : ∀ (n cur : Nat), endT + 1 - cur ≤ n →
      List.Pairwise (fun a b : TimeSlot => a.start < b.start) (slotsLoop endT dur step cur) by
    intro cur
    exact H (endT + 1 - cur) cur le_rfl
  intro n
  induction n with
  | zero =>
    intro cur hn
    rw [slotsLoop, dif_neg (by omega)]
    exact List.Pairwise.nil
  | succ n ih =>
    intro cur hn
    rw [slotsLoop]
    by_cases hc : cur + dur ≤ endT
    · rw [dif_pos ⟨hc, hstep⟩]
      refine List.Pairwise.cons ?_ (ih (cur + step) (by omega))
      intro b hb
      rcases (mem_slotsLoop hstep (cur + step) b).mp hb with ⟨i, hs, _⟩
      rw [hs]
      show cur < cur + step + i * step
      generalize i * step = k
      omega
    · rw [dif_neg (by intro hh; exact hc hh.1)]
      exact List.Pairwise.nil

theorem chain_slotsLoop (endT dur step : Nat) (hstep : 0 < step) :
    ∀ (cur : Nat),
      List.Chain' (fun a b : TimeSlot => a.start + step ≤ b.start) (slotsLoop endT dur step cur) := by
  suffices H : ∀ (n cur : Nat), endT + 1 - cur ≤ n →
      List.Chain' (fun a b : TimeSlot => a.start + step ≤ b.start) (slotsLoop endT dur step cur) by
    intro cur
    exact H (endT + 1 - cur) cur le_rfl
  intro n
  induction n with
  | zero =>
    intro cur hn
    rw [slotsLoop, dif_neg (by omega)]
    exact List.chain'_nil
  | succ n ih =>
    intro cur hn
    rw [slotsLoop]
    by_cases hc : cur + dur ≤ endT
    · rw [dif_pos ⟨hc, hstep⟩]
      refine List.chain'_cons'.mpr ⟨?_, ih (cur + step) (by omega)⟩
      intro b hb
      have hmem := List.mem_of_mem_head? hb
      rcases (mem_slotsLoop hstep (cur + step) b).mp hmem with ⟨i, hs, _⟩
      rw [hs]
      show cur + step ≤ cur + step + i * step
      generalize i * step = k
      omega
    · rw [dif_neg (by intro hh; exact hc hh.1)]
      exact List.chain'_nil

/-! ## Lemmas about the reminder-reset rewrite used by reschedule -/

theorem replaceAll_rs_header (hdr v : List Char) (h : 'R' ∉ hdr) :
    replaceAll (strL (r"Reminder Sent: true")) (strL (r"Reminder Sent: false")) (hdr ++ v)
      = hdr ++ replaceAll (strL (r"Reminder Sent: true")) (strL (r"Reminder Sent: false")) v := by
  rw [show strL (r"Reminder Sent: true") = 'R' :: strL (r"eminder Sent: true") from rfl]
  exact replaceAll_header v h

theorem rs_not_in_typeValue :
    ∀ (t : AppointmentType),
      containsSub (strL (r"Reminder Sent: true")) (typeValue t) = false := by
  intro t; cases t <;> decide

theorem rs_not_in_statusValue :
    ∀ (s : AppointmentStatus),
      containsSub (strL (r"Reminder Sent: true")) (statusValue s) = false := by
  intro s; cases s <;> decide

theorem rs_line6_true :
    replaceAll (strL (r"Reminder Sent: true")) (strL (r"Reminder Sent: false"))
        (strL (r"Reminder Sent: ") ++ strL (r"true"))
      = strL (r"Reminder Sent: ") ++ strL (r"false") := by
  rw [show strL (r"Reminder Sent: true") = 'R' :: strL (r"eminder Sent: true") from rfl]
  rw [show strL (r"Reminder Sent: ") ++ strL (r"true")
      = ('R' :: strL (r"eminder Sent: true")) ++ [] from rfl]
  rw [replaceAll_of_match]
  simp [replaceAll]
  rfl

theorem rs_line6_false :
    replaceAll (strL (r"Reminder Sent: true")) (strL (r"Reminder Sent: false"))
        (strL (r"Reminder Sent: ") ++ strL (r"false"))
      = strL (r"Reminder Sent: ") ++ strL (r"false") := by
  apply replaceAll_of_not_contains
  decide

theorem reminder_replaced_lines (a : Appointment)
    (h1 : nl ∉ a.patient.name) (h2 : nl ∉ a.patient.phone)
    (h3 : nl ∉ orDefault a.patient.email (strL (r"N/A")))
    (h4 : nl ∉ orDefault a.patient.notes (strL (r"None"))) :
    splitOnChar nl (replaceAll (strL (r"Reminder Sent: true")) (strL (r"Reminder Sent: false"))
        (to_calendar_description a)) =
      [strL (r"Patient: ") ++ replaceAll (strL (r"Reminder Sent: true"))
          (strL (r"Reminder Sent: false")) a.patient.name,
       strL (r"Phone: ") ++ replaceAll (strL (r"Reminder Sent: true"))
          (strL (r"Reminder Sent: false")) a.patient.phone,
       strL (r"Email: ") ++ replaceAll (strL (r"Reminder Sent: true"))
          (strL (r"Reminder Sent: false")) (orDefault a.patient.email (strL (r"N/A"))),
       strL (r"Type: ") ++ typeValue a.appointment_type,
       strL (r"Status: ") ++ statusValue a.status,
       strL (r"Reminder Sent: ") ++ strL (r"false"),
       strL (r"Notes: ") ++ replaceAll (strL (r"Reminder Sent: true"))
          (strL (r"Reminder Sent: false")) (orDefault a.patient.notes (strL (r"None")))] := by
  have hnl : nl ∉ strL (r"Reminder Sent: true") := by decide
  have hmem : ∀ (v : List Char), nl ∉ v → nl ∉ replaceAll (strL (r"Reminder Sent: true"))
      (strL (r"Reminder Sent: false")) v := by
    intro v hv hin
    rcases mem_replaceAll v hin with h | h
    · exact hv h
    · exact absurd h (by decide)
  have e1 : nl ∉ strL (r"Patient: ") ++ replaceAll (strL (r"Reminder Sent: true"))
      (strL (r"Reminder Sent: false")) a.patient.name := by
    intro hm
    rcases List.mem_append.mp hm with h | h
    · exact absurd h (by decide)
    · exact hmem _ h1 h
  have e2 : nl ∉ strL (r"Phone: ") ++ replaceAll (strL (r"Reminder Sent: true"))
      (strL (r"Reminder Sent: false")) a.patient.phone := by
    intro hm
    rcases List.mem_append.mp hm with h | h
    · exact absurd h (by decide)
    · exact hmem _ h2 h
  have e3 : nl ∉ strL (r"Email: ") ++ replaceAll (strL (r"Reminder Sent: true"))
      (strL (r"Reminder Sent: false")) (orDefault a.patient.email (strL (r"N/A"))) := by
    intro hm
    rcases List.mem_append.mp hm with h | h
    · exact absurd h (by decide)
    · exact hmem _ h3 h
  have e4 : nl ∉ strL (r"Type: ") ++ typeValue a.appointment_type := by
    intro hm
    rcases List.mem_append.mp hm with h | h
    · exact absurd h (by decide)
    · exact nl_not_mem_typeValue _ h
  have e5 : nl ∉ strL (r"Status: ") ++ statusValue a.status := by
    intro hm
    rcases List.mem_append.mp hm with h | h
    · exact absurd h (by decide)
    · exact nl_not_mem_statusValue _ h
  have e6 : nl ∉ strL (r"Reminder Sent: ") ++ strL (r"false") := by decide
  have e7 : nl ∉ strL (r"Notes: ") ++ replaceAll (strL (r"Reminder Sent: true"))
      (strL (r"Reminder Sent: false")) (orDefault a.patient.notes (strL (r"None"))) := by
    intro hm
    rcases List.mem_append.mp hm with h | h
    · exact absurd h (by decide)
    · exact hmem _ h4 h
  rw [show to_calendar_description a =
      (strL (r"Patient: ") ++ a.patient.name) ++ nl ::
      ((strL (r"Phone: ") ++ a.patient.phone) ++ nl ::
      ((strL (r"Email: ") ++ orDefault a.patient.email (strL (r"N/A"))) ++ nl ::
      ((strL (r"Type: ") ++ typeValue a.appointment_type) ++ nl ::
      ((strL (r"Status: ") ++ statusValue a.status) ++ nl ::
      ((strL (r"Reminder Sent: ")
          ++ (if a.reminder_sent then strL (r"true") else strL (r"false"))) ++ nl ::
      (strL (r"Notes: ") ++ orDefault a.patient.notes (strL (r"None")))))))) from rfl]
  rw [replaceAll_append_cons hnl, replaceAll_append_cons hnl, replaceAll_append_cons hnl,
    replaceAll_append_cons hnl, replaceAll_append_cons hnl, replaceAll_append_cons hnl]
  rw [replaceAll_rs_header (strL (r"Patient: ")) a.patient.name (by decide)]
  rw [replaceAll_rs_header (strL (r"Phone: ")) a.patient.phone (by decide)]
  rw [replaceAll_rs_header (strL (r"Email: "))
    (orDefault a.patient.email (strL (r"N/A"))) (by decide)]
  rw [replaceAll_rs_header (strL (r"Type: ")) (typeValue a.appointment_type) (by decide)]
  rw [replaceAll_rs_header (strL (r"Status: ")) (statusValue a.status) (by decide)]
  rw [replaceAll_rs_header (strL (r"Notes: "))
    (orDefault a.patient.notes (strL (r"None"))) (by decide)]
  rw [replaceAll_of_not_contains (rs_not_in_typeValue a.appointment_type)]
  rw [replaceAll_of_not_contains (rs_not_in_statusValue a.status)]
  cases hr : a.reminder_sent with
  | true =>
    simp only [hr, if_true]
    rw [rs_line6_true]
    rw [splitOnChar_append _ e1, splitOnChar_append _ e2, splitOnChar_append _ e3,
      splitOnChar_append _ e4, splitOnChar_append _ e5, splitOnChar_append _ e6,
      splitOnChar_of_not_mem e7]
  | false =>
    simp only [hr, Bool.false_eq_true, if_false]
    rw [rs_line6_false]
    rw [splitOnChar_append _ e1, splitOnChar_append _ e2, splitOnChar_append _ e3,
      splitOnChar_append _ e4, splitOnChar_append _ e5, splitOnChar_append _ e6,
      splitOnChar_of_not_mem e7]

theorem parse_replaced (a : Appointment)
    (h1 : nl ∉ a.patient.name) (h2 : nl ∉ a.patient.phone)
    (h3 : nl ∉ orDefault a.patient.email (strL (r"N/A")))
    (h4 : nl ∉ orDefault a.patient.notes (strL (r"None"))) :
    parseDescription (replaceAll (strL (r"Reminder Sent: true")) (strL (r"Reminder Sent: false"))
        (to_calendar_description a)) =
      [(strL (r"patient"), replaceAll (strL (r"Reminder Sent: true"))
          (strL (r"Reminder Sent: false")) a.patient.name),
       (strL (r"phone"), replaceAll (strL (r"Reminder Sent: true"))
          (strL (r"Reminder Sent: false")) a.patient.phone),
       (strL (r"email"), replaceAll (strL (r"Reminder Sent: true"))
          (strL (r"Reminder Sent: false")) (orDefault a.patient.email (strL (r"N/A")))),
       (strL (r"type"), typeValue a.appointment_type),
       (strL (r"status"), statusValue a.status),
       (strL (r"reminder_sent"), strL (r"false")),
       (strL (r"notes"), replaceAll (strL (r"Reminder Sent: true"))
          (strL (r"Reminder Sent: false")) (orDefault a.patient.notes (strL (r"None"))))] := by
  unfold parseDescription
  rw [reminder_replaced_lines a h1 h2 h3 h4]
  simp only [List.filterMap_cons, List.filterMap_nil,
    splitFirst_patient, splitFirst_phone, splitFirst_email, splitFirst_type,
    splitFirst_status, splitFirst_reminder, splitFirst_notes,
    normKey_patient, normKey_phone, normKey_email, normKey_type,
    normKey_status, normKey_reminder, normKey_notes]

theorem decode_replaced (a : Appointment) (ev : CalEvent)
    (h1 : nl ∉ a.patient.name) (h2 : nl ∉ a.patient.phone)
    (h3 : nl ∉ orDefault a.patient.email (strL (r"N/A")))
    (h4 : nl ∉ orDefault a.patient.notes (strL (r"None")))
    (hdesc : ev.description = replaceAll (strL (r"Reminder Sent: true"))
      (strL (r"Reminder Sent: false")) (to_calendar_description a)) :
    ∃ ap, from_calendar_event ev = some ap ∧ ap.reminder_sent = false
      ∧ ap.start_time = ev.start ∧ ap.end_time = ev.stop := by
  simp only [from_calendar_event, hdesc, parse_replaced a h1 h2 h3 h4]
  simp +decide only [lookupKey, Option.getD_some, if_true, if_false]
  simp only [typeOfValue_typeValue, statusOfValue_statusValue]
  exact ⟨_, rfl, by rfl, rfl, rfl⟩

/-! ## Lemmas about the summary and status rewrites -/

theorem cancelSummary_clean (name : List Char)
    (h : containsSub (strL (r"Appointment:")) name = false) :
    cancelSummary (strL (r"Appointment: ") ++ name) = strL (r"CANCELLED: ") ++ name := by
  unfold cancelSummary
  rw [show strL (r"Appointment:") = 'A' :: strL (r"ppointment:") from rfl]
  rw [show strL (r"Appointment: ") ++ name
      = ('A' :: strL (r"ppointment:")) ++ (' ' :: name) from rfl]
  rw [replaceAll_of_match]
  have hstep : ('A' :: strL (r"ppointment:")).isPrefixOf (' ' :: name) = false := by
    simp +decide [List.isPrefixOf_cons₂]
  rw [replaceAll_cons_of_not_match hstep]
  have h2 : containsSub ('A' :: strL (r"ppointment:")) name = false := h
  rw [replaceAll_of_not_contains h2]
  rfl

theorem noShowSummary_clean (name : List Char)
    (h : containsSub (strL (r"Appointment:")) name = false) :
    noShowSummary (strL (r"Appointment: ") ++ name) = strL (r"NO SHOW: ") ++ name := by
  unfold noShowSummary
  rw [show strL (r"Appointment:") = 'A' :: strL (r"ppointment:") from rfl]
  rw [show strL (r"Appointment: ") ++ name
      = ('A' :: strL (r"ppointment:")) ++ (' ' :: name) from rfl]
  rw [replaceAll_of_match]
  have hstep : ('A' :: strL (r"ppointment:")).isPrefixOf (' ' :: name) = false := by
    simp +decide [List.isPrefixOf_cons₂]
  rw [replaceAll_cons_of_not_match hstep]
  have h2 : containsSub ('A' :: strL (r"ppointment:")) name = false := h
  rw [replaceAll_of_not_contains h2]
  rfl

theorem cancelSummary_of_not_contains (s : List Char)
    (h : containsSub (strL (r"Appointment:")) s = false) : cancelSummary s = s :=
  replaceAll_of_not_contains h

theorem noShowSummary_of_not_contains (s : List Char)
    (h : containsSub (strL (r"Appointment:")) s = false) : noShowSummary s = s :=
  replaceAll_of_not_contains h

theorem replace_sched_header (hdr v : List Char) (h : 'S' ∉ hdr) :
    replaceAll (strL (r"Status: scheduled")) (strL (r"Status: cancelled")) (hdr ++ v)
      = hdr ++ replaceAll (strL (r"Status: scheduled")) (strL (r"Status: cancelled")) v := by
  rw [show strL (r"Status: scheduled") = 'S' :: strL (r"tatus: scheduled") from rfl]
  exact replaceAll_header v h

theorem replace_conf_header (hdr v : List Char) (h : 'S' ∉ hdr) :
    replaceAll (strL (r"Status: confirmed")) (strL (r"Status: cancelled")) (hdr ++ v)
      = hdr ++ replaceAll (strL (r"Status: confirmed")) (strL (r"Status: cancelled")) v := by
  rw [show strL (r"Status: confirmed") = 'S' :: strL (r"tatus: confirmed") from rfl]
  exact replaceAll_header v h

theorem sched_not_in_typeValue :
    ∀ (t : AppointmentType),
      containsSub (strL (r"Status: scheduled")) (typeValue t) = false := by
  intro t; cases t <;> decide

theorem conf_not_in_typeValue :
    ∀ (t : AppointmentType),
      containsSub (strL (r"Status: confirmed")) (typeValue t) = false := by
  intro t; cases t <;> decide

theorem replace_sched_line :
    replaceAll (strL (r"Status: scheduled")) (strL (r"Status: cancelled"))
        (strL (r"Status: ") ++ strL (r"scheduled")) = strL (r"Status: cancelled") := by
  rw [show strL (r"Status: scheduled") = 'S' :: strL (r"tatus: scheduled") from rfl]
  rw [show strL (r"Status: ") ++ strL (r"scheduled")
      = ('S' :: strL (r"tatus: scheduled")) ++ [] from rfl]
  rw [replaceAll_of_match]
  simp [replaceAll]

theorem cancelDescription_lines (a : Appointment)
    (h1 : nl ∉ a.patient.name) (h2 : nl ∉ a.patient.phone)
    (h3 : nl ∉ orDefault a.patient.email (strL (r"N/A")))
    (h4 : nl ∉ orDefault a.patient.notes (strL (r"None")))
    (hst : a.status = AppointmentStatus.scheduled) :
    splitOnChar nl (cancelDescription (to_calendar_description a)) =
      [strL (r"Patient: ") ++ replaceAll (strL (r"Status: confirmed")) (strL (r"Status: cancelled"))
          (replaceAll (strL (r"Status: scheduled")) (strL (r"Status: cancelled")) a.patient.name),
       strL (r"Phone: ") ++ replaceAll (strL (r"Status: confirmed")) (strL (r"Status: cancelled"))
          (replaceAll (strL (r"Status: scheduled")) (strL (r"Status: cancelled")) a.patient.phone),
       strL (r"Email: ") ++ replaceAll (strL (r"Status: confirmed")) (strL (r"Status: cancelled"))
          (replaceAll (strL (r"Status: scheduled")) (strL (r"Status: cancelled"))
            (orDefault a.patient.email (strL (r"N/A")))),
       strL (r"Type: ") ++ typeValue a.appointment_type,
       strL (r"Status: ") ++ strL (r"cancelled"),
       strL (r"Reminder Sent: ") ++ (if a.reminder_sent then strL (r"true") else strL (r"false")),
       strL (r"Notes: ") ++ replaceAll (strL (r"Status: confirmed")) (strL (r"Status: cancelled"))
          (replaceAll (strL (r"Status: scheduled")) (strL (r"Status: cancelled"))
            (orDefault a.patient.notes (strL (r"None"))))] := by
  have hnl1 : nl ∉ strL (r"Status: scheduled") := by decide
  have hnl2 : nl ∉ strL (r"Status: confirmed") := by decide
  have hmem : ∀ (pat : List Char) (v : List Char), nl ∉ v →
      nl ∉ replaceAll pat (strL (r"Status: cancelled")) v := by
    intro pat v hv hin
    rcases mem_replaceAll v hin with h | h
    · exact hv h
    · exact absurd h (by decide)
  unfold cancelDescription
  rw [show to_calendar_description a =
      (strL (r"Patient: ") ++ a.patient.name) ++ nl ::
      ((strL (r"Phone: ") ++ a.patient.phone) ++ nl ::
      ((strL (r"Email: ") ++ orDefault a.patient.email (strL (r"N/A"))) ++ nl ::
      ((strL (r"Type: ") ++ typeValue a.appointment_type) ++ nl ::
      ((strL (r"Status: ") ++ statusValue a.status) ++ nl ::
      ((strL (r"Reminder Sent: ")
          ++ (if a.reminder_sent then strL (r"true") else strL (r"false"))) ++ nl ::
      (strL (r"Notes: ") ++ orDefault a.patient.notes (strL (r"None")))))))) from rfl]
  rw [hst]
  rw [replaceAll_append_cons hnl1, replaceAll_append_cons hnl1, replaceAll_append_cons hnl1,
    replaceAll_append_cons hnl1, replaceAll_append_cons hnl1, replaceAll_append_cons hnl1]
  rw [replace_sched_header (strL (r"Patient: ")) a.patient.name (by decide)]
  rw [replace_sched_header (strL (r"Phone: ")) a.patient.phone (by decide)]
  rw [replace_sched_header (strL (r"Email: "))
    (orDefault a.patient.email (strL (r"N/A"))) (by decide)]
  rw [replace_sched_header (strL (r"Type: ")) (typeValue a.appointment_type) (by decide)]
  rw [replace_sched_header (strL (r"Notes: "))
    (orDefault a.patient.notes (strL (r"None"))) (by decide)]
  rw [replaceAll_of_not_contains (sched_not_in_typeValue a.appointment_type)]
  rw [show statusValue AppointmentStatus.scheduled = strL (r"scheduled") from rfl]
  rw [replace_sched_line]
  cases hr : a.reminder_sent with
  | true =>
    simp only [hr, if_true]
    rw [replaceAll_of_not_contains
      (show containsSub (strL (r"Status: scheduled"))
        (strL (r"Reminder Sent: ") ++ strL (r"true")) = false from by decide)]
    rw [replaceAll_append_cons hnl2, replaceAll_append_cons hnl2, replaceAll_append_cons hnl2,
      replaceAll_append_cons hnl2, replaceAll_append_cons hnl2, replaceAll_append_cons hnl2]
    rw [replace_conf_header (strL (r"Patient: ")) _ (by decide)]
    rw [replace_conf_header (strL (r"Phone: ")) _ (by decide)]
    rw [replace_conf_header (strL (r"Email: ")) _ (by decide)]
    rw [replace_conf_header (strL (r"Type: ")) (typeValue a.appointment_type) (by decide)]
    rw [replace_conf_header (strL (r"Notes: ")) _ (by decide)]
    rw [replaceAll_of_not_contains (conf_not_in_typeValue a.appointment_type)]
    rw [replaceAll_of_not_contains
      (show containsSub (strL (r"Status: confirmed")) (strL (r"Status: cancelled")) = false
        from by decide)]
    rw [replaceAll_of_not_contains
      (show containsSub (strL (r"Status: confirmed"))
        (strL (r"Reminder Sent: ") ++ strL (r"true")) = false from by decide)]
    have e1 : nl ∉ strL (r"Patient: ")
        ++ replaceAll (strL (r"Status: confirmed")) (strL (r"Status: cancelled"))
          (replaceAll (strL (r"Status: scheduled")) (strL (r"Status: cancelled"))
            a.patient.name) := by
      intro hm
      rcases List.mem_append.mp hm with h | h
      · exact absurd h (by decide)
      · exact hmem _ _ (hmem _ _ h1) h
    have e2 : nl ∉ strL (r"Phone: ")
        ++ replaceAll (strL (r"Status: confirmed")) (strL (r"Status: cancelled"))
          (replaceAll (strL (r"Status: scheduled")) (strL (r"Status: cancelled"))
            a.patient.phone) := by
      intro hm
      rcases List.mem_append.mp hm with h | h
      · exact absurd h (by decide)
      · exact hmem _ _ (hmem _ _ h2) h
    have e3 : nl ∉ strL (r"Email: ")
        ++ replaceAll (strL (r"Status: confirmed")) (strL (r"Status: cancelled"))
          (replaceAll (strL (r"Status: scheduled")) (strL (r"Status: cancelled"))
            (orDefault a.patient.email (strL (r"N/A")))) := by
      intro hm
      rcases List.mem_append.mp hm with h | h
      · exact absurd h (by decide)
      · exact hmem _ _ (hmem _ _ h3) h
    have e4 : nl ∉ strL (r"Type: ") ++ typeValue a.appointment_type := by
      intro hm
      rcases List.mem_append.mp hm with h | h
      · exact absurd h (by decide)
      · exact nl_not_mem_typeValue _ h
    have e7 : nl ∉ strL (r"Notes: ")
        ++ replaceAll (strL (r"Status: confirmed")) (strL (r"Status: cancelled"))
          (replaceAll (strL (r"Status: scheduled")) (strL (r"Status: cancelled"))
            (orDefault a.patient.notes (strL (r"None")))) := by
      intro hm
      rcases List.mem_append.mp hm with h | h
      · exact absurd h (by decide)
      · exact hmem _ _ (hmem _ _ h4) h
    rw [splitOnChar_append _ e1, splitOnChar_append _ e2, splitOnChar_append _ e3,
      splitOnChar_append _ e4, splitOnChar_append _ (by decide), splitOnChar_append _ (by decide),
      splitOnChar_of_not_mem e7]
    rfl
  | false =>
    simp only [hr, Bool.false_eq_true, if_false]
    rw [replaceAll_of_not_contains
      (show containsSub (strL (r"Status: scheduled"))
        (strL (r"Reminder Sent: ") ++ strL (r"false")) = false from by decide)]
    rw [replaceAll_append_cons hnl2, replaceAll_append_cons hnl2, replaceAll_append_cons hnl2,
      replaceAll_append_cons hnl2, replaceAll_append_cons hnl2, replaceAll_append_cons hnl2]
    rw [replace_conf_header (strL (r"Patient: ")) _ (by decide)]
    rw [replace_conf_header (strL (r"Phone: ")) _ (by decide)]
    rw [replace_conf_header (strL (r"Email: ")) _ (by decide)]
    rw [replace_conf_header (strL (r"Type: ")) (typeValue a.appointment_type) (by decide)]
    rw [replace_conf_header (strL (r"Notes: ")) _ (by decide)]
    rw [replaceAll_of_not_contains (conf_not_in_typeValue a.appointment_type)]
    rw [replaceAll_of_not_contains
      (show containsSub (strL (r"Status: confirmed")) (strL (r"Status: cancelled")) = false
        from by decide)]
    rw [replaceAll_of_not_contains
      (show containsSub (strL (r"Status: confirmed"))
        (strL (r"Reminder Sent: ") ++ strL (r"false")) = false from by decide)]
    have e1 : nl ∉ strL (r"Patient: ")
        ++ replaceAll (strL (r"Status: confirmed")) (strL (r"Status: cancelled"))
          (replaceAll (strL (r"Status: scheduled")) (strL (r"Status: cancelled"))
            a.patient.name) := by
      intro hm
      rcases List.mem_append.mp hm with h | h
      · exact absurd h (by decide)
      · exact hmem _ _ (hmem _ _ h1) h
    have e2 : nl ∉ strL (r"Phone: ")
        ++ replaceAll (strL (r"Status: confirmed")) (strL (r"Status: cancelled"))
          (replaceAll (strL (r"Status: scheduled")) (strL (r"Status: cancelled"))
            a.patient.phone) := by
      intro hm
      rcases List.mem_append.mp hm with h | h
      · exact absurd h (by decide)
      · exact hmem _ _ (hmem _ _ h2) h
    have e3 : nl ∉ strL (r"Email: ")
        ++ replaceAll (strL (r"Status: confirmed")) (strL (r"Status: cancelled"))
          (replaceAll (strL (r"Status: scheduled")) (strL (r"Status: cancelled"))
            (orDefault a.patient.email (strL (r"N/A")))) := by
      intro hm
      rcases List.mem_append.mp hm with h | h
      · exact absurd h (by decide)
      · exact hmem _ _ (hmem _ _ h3) h
    have e4 : nl ∉ strL (r"Type: ") ++ typeValue a.appointment_type := by
      intro hm
      rcases List.mem_append.mp hm with h | h
      · exact absurd h (by decide)
      · exact nl_not_mem_typeValue _ h
    have e7 : nl ∉ strL (r"Notes: ")
        ++ replaceAll (strL (r"Status: confirmed")) (strL (r"Status: cancelled"))
          (replaceAll (strL (r"Status: scheduled")) (strL (r"Status: cancelled"))
            (orDefault a.patient.notes (strL (r"None")))) := by
      intro hm
      rcases List.mem_append.mp hm with h | h
      · exact absurd h (by decide)
      · exact hmem _ _ (hmem _ _ h4) h
    rw [splitOnChar_append _ e1, splitOnChar_append _ e2, splitOnChar_append _ e3,
      splitOnChar_append _ e4, splitOnChar_append _ (by decide), splitOnChar_append _ (by decide),
      splitOnChar_of_not_mem e7]
    rfl

theorem cancelDescription_status (a : Appointment)
    (h1 : nl ∉ a.patient.name) (h2 : nl ∉ a.patient.phone)
    (h3 : nl ∉ orDefault a.patient.email (strL (r"N/A")))
    (h4 : nl ∉ orDefault a.patient.notes (strL (r"None")))
    (hst : a.status = AppointmentStatus.scheduled) :
    lookupKey (parseDescription (cancelDescription (to_calendar_description a)))
      (strL (r"status")) = some (strL (r"cancelled")) := by
  unfold parseDescription
  rw [cancelDescription_lines a h1 h2 h3 h4 hst]
  simp only [List.filterMap_cons, List.filterMap_nil,
    splitFirst_patient, splitFirst_phone, splitFirst_email, splitFirst_type,
    splitFirst_status, splitFirst_reminder, splitFirst_notes,
    normKey_patient, normKey_phone, normKey_email, normKey_type,
    normKey_status, normKey_reminder, normKey_notes]
  simp +decide only [lookupKey, if_true, if_false]

/-! ## Lemmas about the event store and availability plumbing -/

theorem find?_update (l : List (List Char × CalEvent)) (idv : List Char) (ev' : CalEvent) :
    ∀ kv0, l.find? (fun kv => kv.1 = idv) = some kv0 →
      (l.map fun kv => if kv.1 = idv then (idv, ev') else kv).find? (fun kv => kv.1 = idv)
        = some (idv, ev') := by
  induction l with
  | nil => intro kv0 h; simp at h
  | cons x xs ih =>
    intro kv0 h
    by_cases hx : x.1 = idv
    · simp only [List.map_cons, if_pos hx]
      rw [List.find?_cons]
      simp
    · rw [List.find?_cons] at h
      simp [hx] at h
      simp only [List.map_cons, if_neg hx]
      rw [List.find?_cons]
      simp only [decide_eq_false hx]
      exact ih kv0 h

theorem db_find_update (l : List DbAppointment) (uid aid : List Char) :
    ∀ a0, l.find? (fun a => a.id = aid ∧ a.doctor_id = uid) = some a0 →
      (l.map fun a => if a.id = aid ∧ a.doctor_id = uid
          then { a with status := strL (r"cancelled") } else a).find?
        (fun a => a.id = aid ∧ a.doctor_id = uid)
        = some { a0 with status := strL (r"cancelled") } := by
  induction l with
  | nil => intro a0 h; simp at h
  | cons x xs ih =>
    intro a0 h
    by_cases hx : x.id = aid ∧ x.doctor_id = uid
    · rw [List.find?_cons] at h
      simp [hx] at h
      cases h
      simp only [List.map_cons, if_pos hx]
      rw [List.find?_cons]
      simp [hx]
    · rw [List.find?_cons] at h
      simp [hx] at h
      simp only [List.map_cons, if_neg hx]
      rw [List.find?_cons]
      simp only [decide_eq_false hx]
      exact ih a0 (by simpa using h)

theorem check_availability_ok (cfg : CalendarConfig) (api : CalendarApi)
    (parsed : Except Unit Nat) (today now : Nat) (durOpt : Option Nat)
    (h : api.freebusy_fails = none) :
    ∃ resp, check_availability cfg api parsed today now durOpt = Except.ok resp := by
  rcases parsed with e | date
  · exact ⟨_, rfl⟩
  · simp only [check_availability, get_busy_periods, h]
    by_cases h1 : date < today
    · rw [if_pos h1]
      exact ⟨_, rfl⟩
    · rw [if_neg h1]
      by_cases h2 : (date % 7) ∈ cfg.available_days
      · rw [if_pos h2]
        exact ⟨_, rfl⟩
      · rw [if_neg h2]
        exact ⟨_, rfl⟩

theorem is_slot_available_ok (cfg : CalendarConfig) (api : CalendarApi)
    (dt today now : Nat) (h : api.freebusy_fails = none) :
    ∃ b, is_slot_available cfg api dt today now = Except.ok b := by
  rcases check_availability_ok cfg api (Except.ok (dt / 1440)) today now none h with ⟨resp, hr⟩
  simp only [is_slot_available, hr]
  exact ⟨_, rfl⟩

/-! ## Lemmas for date resolution -/

theorem idxOf_cases (w : List Char) (i : Nat)
    (h : idxOf weekdayNames w = some i) :
    (w = strL (r"monday") ∧ i = 0) ∨ (w = strL (r"tuesday") ∧ i = 1)
    ∨ (w = strL (r"wednesday") ∧ i = 2) ∨ (w = strL (r"thursday") ∧ i = 3)
    ∨ (w = strL (r"friday") ∧ i = 4) ∨ (w = strL (r"saturday") ∧ i = 5)
    ∨ (w = strL (r"sunday") ∧ i = 6) := by
  simp only [weekdayNames, idxOf] at h
  split_ifs at h with g1 g2 g3 g4 g5 g6 g7 <;> simp_all

theorem parse_next_eq (w : List Char) (k : Nat) (today : Nat)
    (hw : idxOf weekdayNames w = some k)
    (hcont : containsSub (strL (r"next ")) w = false) :
    parse_date_nl (strL (r"next ") ++ w) today =
      some (today + (if ((k : Nat) : Int) - ((today % 7 : Nat) : Int) ≤ 0
        then ((k : Nat) : Int) - ((today % 7 : Nat) : Int) + 7
        else ((k : Nat) : Int) - ((today % 7 : Nat) : Int)).toNat) := by
  have hne1 : ¬ (strL (r"next ") ++ w = strL (r"today")) := by
    intro h
    have hh := congrArg List.head? h
    rw [show (strL (r"next ") ++ w).head? = some 'n' from rfl,
      show (strL (r"today")).head? = some 't' from rfl] at hh
    exact absurd hh (by decide)
  have hne2 : ¬ (strL (r"next ") ++ w = strL (r"tomorrow")) := by
    intro h
    have hh := congrArg List.head? h
    rw [show (strL (r"next ") ++ w).head? = some 'n' from rfl,
      show (strL (r"tomorrow")).head? = some 't' from rfl] at hh
    exact absurd hh (by decide)
  have hpre : (strL (r"next ")).isPrefixOf (strL (r"next ") ++ w) = true :=
    isPrefixOf_append_self _ _
  have hday : replaceAll (strL (r"next ")) [] (strL (r"next ") ++ w) = w := by
    rw [show strL (r"next ") = 'n' :: strL (r"ext ") from rfl]
    rw [show ('n' :: strL (r"ext ")) ++ w = ('n' :: strL (r"ext ")) ++ w from rfl]
    rw [replaceAll_of_match]
    rw [replaceAll_of_not_contains (show containsSub ('n' :: strL (r"ext ")) w = false from hcont)]
    rfl
  simp only [parse_date_nl, if_neg hne1, if_neg hne2, hpre, if_true, hday, hw]

theorem next_weekday_arith (today t : Nat) (ht : t < 7) (d : Nat)
    (hd : d = today + (if ((t : Nat) : Int) - ((today % 7 : Nat) : Int) ≤ 0
      then ((t : Nat) : Int) - ((today % 7 : Nat) : Int) + 7
      else ((t : Nat) : Int) - ((today % 7 : Nat) : Int)).toNat) :
    today < d ∧ d % 7 = t % 7 ∧ (today % 7 = t → d = today + 7)
      ∧ ∀ e, today < e → e < d → e % 7 ≠ t := by
  subst hd
  by_cases hc : ((t : Nat) : Int) - ((today % 7 : Nat) : Int) ≤ 0
  · rw [if_pos hc]
    refine ⟨by omega, by omega, by omega, ?_⟩
    intro e he1 he2
    omega
  · rw [if_neg hc]
    refine ⟨by omega, by omega, by omega, ?_⟩
    intro e he1 he2
    omega

/-! ## Claim theorems -/

/-- C1 (counterexample): the round-trip claim fails as stated: for the
appointment whose notes are the literal string `None`, decoding the encoded
event silently turns the notes into an absent value, so
`decode (encode x) ≠ x`. -/
theorem c1_roundtrip_counterexample :
    from_calendar_event (encodeEvent
      { id := none
        patient := { name := strL (r"Bob"), phone := strL (r"555")
                     email := none, notes := some (strL (r"None")) }
        start_time := 540, end_time := 570
        appointment_type := AppointmentType.checkup
        status := AppointmentStatus.scheduled
        reminder_sent := false, created_at := none })
      ≠ some
      { id := none
        patient := { name := strL (r"Bob"), phone := strL (r"555")
                     email := none, notes := some (strL (r"None")) }
        start_time := 540, end_time := 570
        appointment_type := AppointmentType.checkup
        status := AppointmentStatus.scheduled
        reminder_sent := false, created_at := none } := by
  have h : from_calendar_event (encodeEvent
      { id := none
        patient := { name := strL (r"Bob"), phone := strL (r"555")
                     email := none, notes := some (strL (r"None")) }
        start_time := 540, end_time := 570
        appointment_type := AppointmentType.checkup
        status := AppointmentStatus.scheduled
        reminder_sent := false, created_at := none })
      = some
      { id := none
        patient := { name := strL (r"Bob"), phone := strL (r"555")
                     email := none, notes := none }
        start_time := 540, end_time := 570
        appointment_type := AppointmentType.checkup
        status := AppointmentStatus.scheduled
        reminder_sent := false, created_at := none } := by
    simp +decide [from_calendar_event, encodeEvent, to_calendar_description, parseDescription,
      splitOnChar, splitFirst, replaceAll, toLowerL, lookupKey, typeOfValue, statusOfValue,
      orDefault, typeValue, statusValue, strL, nl]
  rw [h]
  intro hc
  have := Option.some.inj hc
  simp at this

/-- C1 witness: the amended round trip at a concrete appointment with every
optional field populated. -/
theorem c1_roundtrip_amended_witness :
    from_calendar_event (encodeEvent
      { id := some (strL (r"ev9"))
        patient := { name := strL (r"John Doe"), phone := strL (r"+15551234567")
                     email := some (strL (r"j@x.io")), notes := some (strL (r"allergic")) }
        start_time := 600, end_time := 630
        appointment_type := AppointmentType.consultation
        status := AppointmentStatus.confirmed
        reminder_sent := true, created_at := some 100 })
      = some
      { id := some (strL (r"ev9"))
        patient := { name := strL (r"John Doe"), phone := strL (r"+15551234567")
                     email := some (strL (r"j@x.io")), notes := some (strL (r"allergic")) }
        start_time := 600, end_time := 630
        appointment_type := AppointmentType.consultation
        status := AppointmentStatus.confirmed
        reminder_sent := true, created_at := some 100 } :=
  c1_roundtrip_amended _ (by decide) (by decide)
    (by intro e he; simp at he; rw [← he]; exact ⟨by decide, by decide, by decide⟩)
    (by intro m hm; simp at hm; rw [← hm]; exact ⟨by decide, by decide, by decide⟩)

/-- C2: for a positive duration, `generate_time_slots` yields exactly the
slots of the cursor loop (membership characterisation), every slot is
exactly `duration` long, the output is chronologically ascending, and
consecutive slot starts differ by at least `duration + buffer`; on a
weekday outside the configured working-day set the result is empty and
`check_availability` answers with the closed-office message and no slots. -/
theorem c2_generate_time_slots_spec (cfg : CalendarConfig) (date dur : Nat) (hdur : 0 < dur) :
    (∀ s ∈ generate_time_slots cfg date dur, s.stop = s.start + dur)
    ∧ List.Pairwise (fun a b : TimeSlot => a.start < b.start) (generate_time_slots cfg date dur)
    ∧ List.Chain' (fun a b : TimeSlot =>
        a.start + dur + cfg.buffer_between_appointments_minutes ≤ b.start)
        (generate_time_slots cfg date dur)
    ∧ (∀ s, s ∈ generate_time_slots cfg date dur ↔
        (date % 7) ∈ cfg.available_days ∧
        ∃ i, s = { start := date * 1440 + cfg.available_start_hour * 60
                      + cfg.available_start_minute
                      + i * (dur + cfg.buffer_between_appointments_minutes),
                   stop := date * 1440 + cfg.available_start_hour * 60
                      + cfg.available_start_minute
                      + i * (dur + cfg.buffer_between_appointments_minutes) + dur }
          ∧ date * 1440 + cfg.available_start_hour * 60 + cfg.available_start_minute
              + i * (dur + cfg.buffer_between_appointments_minutes) + dur
            ≤ date * 1440 + cfg.available_end_hour * 60 + cfg.available_end_minute)
    ∧ ((date % 7) ∉ cfg.available_days →
        generate_time_slots cfg date dur = []
        ∧ ∀ (api : CalendarApi) (today now : Nat) (durOpt : Option Nat), today ≤ date →
            check_availability cfg api (Except.ok date) today now durOpt
              = Except.ok { available_slots := [],
                            message := Msg.closed_office (date % 7) cfg.available_days }) := by
  have hstep : 0 < dur + cfg.buffer_between_appointments_minutes := by omega
  refine ⟨?_, ?_, ?_, ?_, ?_⟩
  · intro s hs
    unfold generate_time_slots at hs
    by_cases hd : (date % 7) ∈ cfg.available_days
    · rw [if_pos hd] at hs
      rcases (mem_slotsLoop hstep _ s).mp hs with ⟨i, hsi, _⟩
      rw [hsi]
    · rw [if_neg hd] at hs
      simp at hs
  · unfold generate_time_slots
    by_cases hd : (date % 7) ∈ cfg.available_days
    · rw [if_pos hd]
      exact pairwise_slotsLoop _ _ _ hstep _
    · rw [if_neg hd]
      exact List.Pairwise.nil
  · unfold generate_time_slots
    by_cases hd : (date % 7) ∈ cfg.available_days
    · rw [if_pos hd]
      refine List.Chain'.imp ?_ (chain_slotsLoop _ _ _ hstep _)
      intro a b hab
      omega
    · rw [if_neg hd]
      exact List.chain'_nil
  · intro s
    unfold generate_time_slots
    by_cases hd : (date % 7) ∈ cfg.available_days
    · rw [if_pos hd]
      rw [mem_slotsLoop hstep]
      constructor
      · rintro ⟨i, hsi, hle⟩
        exact ⟨hd, i, by rw [hsi], by omega⟩
      · rintro ⟨_, i, hsi, hle⟩
        exact ⟨i, by rw [hsi], by omega⟩
    · rw [if_neg hd]
      simp only [List.not_mem_nil, false_iff, not_and]
      intro hcon
      exact absurd hcon hd
  · intro hd
    constructor
    · unfold generate_time_slots
      rw [if_neg hd]
    · intro api today now durOpt htoday
      simp only [check_availability]
      rw [if_neg (by omega), if_neg hd]

/-- C2 witness: the slot-generator properties at a concrete configuration
(Mon-Fri, 09:00-17:00, 30-minute slots, no buffer) on a Tuesday. -/
theorem c2_generate_time_slots_spec_witness :
    (∀ s ∈ generate_time_slots
        { available_days := [0, 1, 2, 3, 4], available_start_hour := 9,
          available_start_minute := 0, available_end_hour := 17, available_end_minute := 0,
          appointment_duration_minutes := 30, buffer_between_appointments_minutes := 0 } 1 30,
      s.stop = s.start + 30)
    ∧ List.Pairwise (fun a b : TimeSlot => a.start < b.start)
        (generate_time_slots
          { available_days := [0, 1, 2, 3, 4], available_start_hour := 9,
            available_start_minute := 0, available_end_hour := 17, available_end_minute := 0,
            appointment_duration_minutes := 30, buffer_between_appointments_minutes := 0 } 1 30) := by
  have h := c2_generate_time_slots_spec
    { available_days := [0, 1, 2, 3, 4], available_start_hour := 9,
      available_start_minute := 0, available_end_hour := 17, available_end_minute := 0,
      appointment_duration_minutes := 30, buffer_between_appointments_minutes := 0 } 1 30
    (by decide)
  exact ⟨h.1, h.2.1⟩

/-- C3: the slot filter pipeline keeps exactly the candidates that overlap
no busy interval under the half-open test and start strictly after now, as
a subsequence of the input; and on the spec's concrete example (slots
9:00-9:30, 9:30-10:00, 10:00-10:30 with busy 9:15-9:45, in minutes) only
the 10:00-10:30 slot remains. -/
theorem c3_filter_pipeline_spec :
    (∀ (candidates : List TimeSlot) (busy : List BusyPeriod) (now : Nat),
      List.Sublist (filter_past_slots (filter_available_slots candidates busy) now) candidates
      ∧ (∀ s, s ∈ filter_past_slots (filter_available_slots candidates busy) now ↔
          s ∈ candidates
          ∧ (∀ b ∈ busy, s.stop ≤ b.start ∨ b.stop ≤ s.start)
          ∧ now < s.start))
    ∧ filter_past_slots (filter_available_slots
        [{ start := 540, stop := 570 }, { start := 570, stop := 600 },
          { start := 600, stop := 630 }]
        [{ start := 555, stop := 585 }]) 0
      = [{ start := 600, stop := 630 }] := by
  constructor
  · intro candidates busy now
    constructor
    · exact List.Sublist.trans (List.filter_sublist _) (List.filter_sublist _)
    · intro s
      simp only [filter_past_slots, filter_available_slots, List.mem_filter,
        List.all_eq_true, Bool.or_eq_true, decide_eq_true_eq]
      constructor
      · rintro ⟨⟨hmem, hbusy⟩, hnow⟩
        exact ⟨hmem, fun b hb => hbusy b hb, hnow⟩
      · rintro ⟨hmem, hbusy, hnow⟩
        exact ⟨⟨hmem, fun b hb => hbusy b hb⟩, hnow⟩
  · decide

/-- C4 (counterexample): the claim that no lifecycle operation ever lets an
exception propagate fails: `book_appointment` runs its availability
pre-check outside the `try` block, so a failing free/busy call propagates
out of the operation as an exception (`Except.error`) instead of producing
a failure response. -/
theorem c4_book_propagates_freebusy_failure :
    book_appointment
      { available_days := [0, 1, 2, 3, 4, 5, 6], available_start_hour := 9,
        available_start_minute := 0, available_end_hour := 17, available_end_minute := 0,
        appointment_duration_minutes := 30, buffer_between_appointments_minutes := 0 }
      { events := [], busy := [], freebusy_fails := some (strL (r"boom")),
        get_fails := none, insert_fails := none, update_fails := none,
        insert_id := strL (r"e1") }
      (strL (r"Ann")) (strL (r"123")) 540 none AppointmentType.checkup none 0 0
      = Except.error (strL (r"boom")) := by
  rfl

/-- C4 (amended): the event-level calendar calls are guarded: whenever the
free/busy pre-check call succeeds, `book_appointment` and
`reschedule_appointment` return an explicit response even if the event
insert/get/update call fails, and `cancel_appointment` and `mark_no_show`
always return an explicit response; but a free/busy failure propagates out
of book/reschedule (see the counterexample). -/
theorem c4_lifecycle_results_amended :
    (∀ cfg api nm ph dt em ty no today now, api.freebusy_fails = none →
      ∃ out, book_appointment cfg api nm ph dt em ty no today now = Except.ok out)
    ∧ (∀ cfg api aid dt today now, api.freebusy_fails = none →
      ∃ out, reschedule_appointment cfg api aid dt today now = Except.ok out)
    ∧ (∀ api aid, ∃ resp api2, cancel_appointment api aid = (resp, api2))
    ∧ (∀ api aid, ∃ resp api2, mark_no_show api aid = (resp, api2)) := by
  refine ⟨?_, ?_, ?_, ?_⟩
  · intro cfg api nm ph dt em ty no today now h
    rcases is_slot_available_ok cfg api dt today now h with ⟨b, hb⟩
    simp only [book_appointment, hb]
    cases b with
    | false => exact ⟨_, rfl⟩
    | true =>
      repeat' first
        | exact ⟨_, rfl⟩
        | simp_all
        | split
  · intro cfg api aid dt today now h
    rcases is_slot_available_ok cfg api dt today now h with ⟨b, hb⟩
    simp only [reschedule_appointment, hb]
    cases b with
    | false => exact ⟨_, rfl⟩
    | true =>
      repeat' first
        | exact ⟨_, rfl⟩
        | simp_all
        | split
  · intro api aid
    exact ⟨_, _, rfl⟩
  · intro api aid
    exact ⟨_, _, rfl⟩

/-- C4 witness: the amended guarantee at concrete inputs whose free/busy
call succeeds. -/
theorem c4_lifecycle_results_amended_witness :
    ∃ out, book_appointment
      { available_days := [0, 1, 2, 3, 4, 5, 6], available_start_hour := 9,
        available_start_minute := 0, available_end_hour := 17, available_end_minute := 0,
        appointment_duration_minutes := 30, buffer_between_appointments_minutes := 0 }
      { events := [], busy := [], freebusy_fails := none,
        get_fails := none, insert_fails := some (strL (r"down")), update_fails := none,
        insert_id := strL (r"e1") }
      (strL (r"Ann")) (strL (r"123")) 540 none AppointmentType.checkup none 0 0
      = Except.ok out :=
  c4_lifecycle_results_amended.1
    { available_days := [0, 1, 2, 3, 4, 5, 6], available_start_hour := 9,
      available_start_minute := 0, available_end_hour := 17, available_end_minute := 0,
      appointment_duration_minutes := 30, buffer_between_appointments_minutes := 0 }
    { events := [], busy := [], freebusy_fails := none,
      get_fails := none, insert_fails := some (strL (r"down")), update_fails := none,
      insert_id := strL (r"e1") }
    (strL (r"Ann")) (strL (r"123")) 540 none AppointmentType.checkup none 0 0 rfl

/-- C5 (counterexample): the combined claim fails on the DB-backed service:
its `cancel_appointment` sets the local row's status to `cancelled` but
issues a `delete_event` request for the linked external event instead of
relabelling it — the event summary and description are left untouched, so
"relabels rather than deletes" is false of this cancel path. -/
theorem c5_db_cancel_counterexample :
    dbCancelAppointment (strL (r"d1"))
      { appointments := [{ id := strL (r"a1"), doctor_id := strL (r"d1"),
                           status := strL (r"scheduled"),
                           calendar_event_id := some (strL (r"e1")) }],
        events := [(strL (r"e1"),
          { id := some (strL (r"e1")), summary := strL (r"Appointment: Bob"),
            description := strL (r"Status: scheduled"), start := 540, stop := 570,
            created := none })] }
      (strL (r"a1"))
      = ({ success := true, message_or_error := strL (r"Appointment cancelled") },
         { appointments := [{ id := strL (r"a1"), doctor_id := strL (r"d1"),
                              status := strL (r"cancelled"),
                              calendar_event_id := some (strL (r"e1")) }],
           events := [(strL (r"e1"),
             { id := some (strL (r"e1")), summary := strL (r"Appointment: Bob"),
               description := strL (r"Status: scheduled"), start := 540, stop := 570,
               created := none })] },
         [McpOp.delete_event (strL (r"e1"))]) := by
  decide

/-- C5 (amended): the calendar-module cancel relabels the linked event via
an update — the event still exists afterwards with the rewritten summary
and with the description's Status field set to `cancelled` — and maintains
no local record; the DB-backed cancel sets the local row's status to
`cancelled` but requests deletion of the linked event and never relabels
it. -/
theorem c5_cancel_relabels_amended :
    (∀ (api : CalendarApi) (aid : List Char) (ev : CalEvent) (a : Appointment),
      api.get_fails = none → api.update_fails = none →
      api.events.find? (fun kv => kv.1 = aid) = some (aid, ev) →
      ev.description = to_calendar_description a →
      nl ∉ a.patient.name → nl ∉ a.patient.phone →
      nl ∉ orDefault a.patient.email (strL (r"N/A")) →
      nl ∉ orDefault a.patient.notes (strL (r"None")) →
      a.status = AppointmentStatus.scheduled →
      ∃ resp api2, cancel_appointment api aid = (resp, api2)
        ∧ resp.success = true
        ∧ api2.events.find? (fun kv => kv.1 = aid)
            = some (aid, { ev with description := cancelDescription ev.description,
                                   summary := cancelSummary ev.summary })
        ∧ lookupKey (parseDescription (cancelDescription ev.description)) (strL (r"status"))
            = some (strL (r"cancelled")))
    ∧ (∀ (st : DbState) (uid aid : List Char) (a0 : DbAppointment) (evId : List Char),
      st.appointments.find? (fun a => a.id = aid ∧ a.doctor_id = uid) = some a0 →
      a0.calendar_event_id = some evId →
      ∃ res st2, dbCancelAppointment uid st aid = (res, st2, [McpOp.delete_event evId])
        ∧ res.success = true
        ∧ st2.events = st.events
        ∧ st2.appointments.find? (fun a => a.id = aid ∧ a.doctor_id = uid)
            = some { a0 with status := strL (r"cancelled") }) := by
  constructor
  · intro api aid ev a hg hu hf hdesc h1 h2 h3 h4 hst
    simp only [cancel_appointment, apiGet, hg, hf, apiUpdate, hu]
    refine ⟨_, _, rfl, rfl, ?_, ?_⟩
    · exact find?_update api.events aid _ _ hf
    · rw [hdesc]
      exact cancelDescription_status a h1 h2 h3 h4 hst
  · intro st uid aid a0 evId hf hev
    simp only [dbCancelAppointment, hf, hev]
    refine ⟨_, _, rfl, rfl, rfl, ?_⟩
    have hres := db_find_update st.appointments uid aid a0 hf
    rw [hev] at hres
    exact hres

/-- C5 witness: the amended cancel behaviour at a concrete store holding
one encoded scheduled appointment. -/
theorem c5_cancel_relabels_amended_witness :
    ∃ resp api2, cancel_appointment apiW (strL (r"e1")) = (resp, api2)
      ∧ resp.success = true
      ∧ api2.events.find? (fun kv => kv.1 = strL (r"e1"))
          = some (strL (r"e1"),
            { evW with description := cancelDescription evW.description,
                       summary := cancelSummary evW.summary })
      ∧ lookupKey (parseDescription (cancelDescription evW.description)) (strL (r"status"))
          = some (strL (r"cancelled")) :=
  c5_cancel_relabels_amended.1 apiW (strL (r"e1")) evW apptW rfl rfl rfl rfl
    (by decide) (by decide) (by decide) (by decide) rfl

/-- C6 (counterexample): the title rewrite is performed by Python
`str.replace`, which is case-sensitive and replaces every occurrence — not
the case-insensitive first-occurrence rewrite the claim describes: a
lowercase `appointment:` prefix is left unchanged (instead of becoming
`CANCELLED: Bob`), and a summary containing the substring twice has both
occurrences rewritten (instead of only the first). -/
theorem c6_title_rewrite_counterexample :
    cancelSummary (strL (r"appointment: Bob")) = strL (r"appointment: Bob")
    ∧ strL (r"appointment: Bob") ≠ strL (r"CANCELLED: Bob")
    ∧ cancelSummary (strL (r"Appointment: Appointment: Bob"))
        = strL (r"CANCELLED: CANCELLED: Bob")
    ∧ strL (r"CANCELLED: CANCELLED: Bob") ≠ strL (r"CANCELLED: Appointment: Bob")
    ∧ noShowSummary (strL (r"appointment: Bob")) = strL (r"appointment: Bob") := by
  refine ⟨?_, by decide, ?_, by decide, ?_⟩
  · exact cancelSummary_of_not_contains _ (by decide)
  · simp +decide [cancelSummary, replaceAll, strL]
  · exact noShowSummary_of_not_contains _ (by decide)

/-- C6 (amended): the `"Appointment:"` prefix match is case-sensitive and
`str.replace` rewrites every occurrence of the substring: on the canonical
summary `"Appointment: " + name` whose name does not itself contain
`"Appointment:"`, cancelling yields `"CANCELLED: " + name` and marking
no-show yields `"NO SHOW: " + name` (trailing name preserved); any summary
not containing the exact-case substring is left unchanged. -/
theorem c6_title_rewrite_amended :
    (∀ name : List Char, containsSub (strL (r"Appointment:")) name = false →
      cancelSummary (strL (r"Appointment: ") ++ name) = strL (r"CANCELLED: ") ++ name
      ∧ noShowSummary (strL (r"Appointment: ") ++ name) = strL (r"NO SHOW: ") ++ name)
    ∧ (∀ s : List Char, containsSub (strL (r"Appointment:")) s = false →
      cancelSummary s = s ∧ noShowSummary s = s) := by
  constructor
  · intro name h
    exact ⟨cancelSummary_clean name h, noShowSummary_clean name h⟩
  · intro s h
    exact ⟨cancelSummary_of_not_contains s h, noShowSummary_of_not_contains s h⟩

/-- C6 witness: the amended rewrite at a concrete summary. -/
theorem c6_title_rewrite_amended_witness :
    cancelSummary (strL (r"Appointment: ") ++ strL (r"Ann"))
        = strL (r"CANCELLED: ") ++ strL (r"Ann")
      ∧ noShowSummary (strL (r"Appointment: ") ++ strL (r"Ann"))
        = strL (r"NO SHOW: ") ++ strL (r"Ann") :=
  c6_title_rewrite_amended.1 (strL (r"Ann")) (by decide)

/-- C7 (amended): for a stored event whose description is the encoding of
an appointment with newline-free field values, every successful
`reschedule_appointment` returns an appointment with `reminder_sent` reset
to false and with start/end updated to the new time. -/
theorem c7_reschedule_resets_reminder_amended (cfg : CalendarConfig) (api : CalendarApi)
    (aid : List Char) (new_dt today now : Nat) (a : Appointment) (ev : CalEvent)
    (h1 : nl ∉ a.patient.name) (h2 : nl ∉ a.patient.phone)
    (h3 : nl ∉ orDefault a.patient.email (strL (r"N/A")))
    (h4 : nl ∉ orDefault a.patient.notes (strL (r"None")))
    (hdesc : ev.description = to_calendar_description a)
    (hslot : is_slot_available cfg api new_dt today now = Except.ok true)
    (hget : apiGet api aid = Except.ok ev)
    (hupd : api.update_fails = none) :
    ∃ resp api2 ap,
      reschedule_appointment cfg api aid new_dt today now = Except.ok (resp, api2)
      ∧ resp.success = true ∧ resp.appointment = some ap
      ∧ ap.reminder_sent = false
      ∧ ap.start_time = new_dt
      ∧ ap.end_time = new_dt + cfg.appointment_duration_minutes := by
  simp only [reschedule_appointment, hslot, hget, apiUpdate, hupd]
  rcases decode_replaced a
      { ev with
          start := new_dt
          stop := new_dt + cfg.appointment_duration_minutes
          description := replaceAll (strL (r"Reminder Sent: true"))
            (strL (r"Reminder Sent: false")) ev.description }
      h1 h2 h3 h4 (by simp [hdesc])
    with ⟨ap, hap, hrem, hstart, hstop⟩
  rw [hap]
  exact ⟨_, _, ap, rfl, rfl, rfl, hrem, by simpa using hstart, by simpa using hstop⟩

/-- C7 witness: a concrete successful reschedule on the encoded clean
appointment `apptW`, yielding a returned appointment with
`reminder_sent = false` and the new start/end. -/
theorem c7_reschedule_resets_reminder_amended_witness :
    ∃ resp api2 ap,
      reschedule_appointment cfgW apiW (strL (r"e1")) 540 0 0 = Except.ok (resp, api2)
      ∧ resp.success = true ∧ resp.appointment = some ap
      ∧ ap.reminder_sent = false
      ∧ ap.start_time = 540
      ∧ ap.end_time = 540 + cfgW.appointment_duration_minutes :=
  c7_reschedule_resets_reminder_amended cfgW apiW (strL (r"e1")) 540 0 0 apptW evW
    (by decide) (by decide) (by decide) (by decide) rfl
    (by simp +decide [is_slot_available, check_availability, get_busy_periods,
      generate_time_slots, slotsLoop, filter_available_slots, filter_past_slots,
      cfgW, apiW])
    rfl rfl

set_option maxRecDepth 8000 in
/-- C7 (counterexample): the claim fails as stated: for an appointment
whose notes smuggle a `Reminder Sent: TRUE` line into the description
(`apptN`), a successful reschedule returns an appointment whose
`reminder_sent` is still true — the case-sensitive `str.replace` misses
the uppercase value and the decoder's last-line-wins lookup reads it. -/
theorem c7_reschedule_reminder_counterexample :
    ∃ resp api2 ap,
      reschedule_appointment cfgN apiN (strL (r"e1")) 540 0 0 = Except.ok (resp, api2)
      ∧ resp.success = true ∧ resp.appointment = some ap
      ∧ ap.reminder_sent = true := by
  simp +decide [reschedule_appointment, is_slot_available, check_availability,
    get_busy_periods, generate_time_slots, slotsLoop, filter_available_slots,
    filter_past_slots, apiGet, apiUpdate, from_calendar_event, parseDescription,
    splitOnChar, splitFirst, replaceAll, toLowerL, lookupKey, typeOfValue, statusOfValue,
    to_calendar_description, orDefault, typeValue, statusValue, cfgN, apiN, evN, apptN,
    strL, nl]

/-- C8: credential lookup semantics: when the cached expiry has passed the
lookup attempts a refresh with the stored refresh token — on provider
success the persisted credential carries the new access token and expiry
with the refresh token carried over, and that refreshed credential is what
is returned; on provider failure (or a missing refresh token) the lookup
returns `none`; when the expiry has not passed the cached token is
returned unchanged. -/
theorem c8_credential_proxy_spec (u : AuthUser) (now : Nat)
    (provider : Except (List Char) RefreshOutcome) (td : OAuthToken) (exp : Nat)
    (htok : u.google_oauth_token = some td) (hexp : u.google_token_expiry = some exp) :
    (∀ rt r, exp ≤ now → u.google_refresh_token = some rt → provider = Except.ok r →
      get_user_oauth_token (some u) now provider =
        (some { access_token := r.token, refresh_token := some rt,
                expiry := r.expiry, scopes := r.scopes },
         some { u with
            google_oauth_token := some { access_token := r.token, refresh_token := some rt,
                                         expiry := r.expiry, scopes := r.scopes }
            google_token_expiry := r.expiry }))
    ∧ (∀ e, exp ≤ now → provider = Except.error e →
        (get_user_oauth_token (some u) now provider).1 = none)
    ∧ (exp ≤ now → u.google_refresh_token = none →
        (get_user_oauth_token (some u) now provider).1 = none)
    ∧ (now < exp →
        get_user_oauth_token (some u) now provider = (some td, some u)) := by
  refine ⟨?_, ?_, ?_, ?_⟩
  · intro rt r hle hrt hprov
    simp only [get_user_oauth_token, refresh_user_oauth_token, htok, hexp, hrt, hprov,
      if_pos hle]
    rfl
  · intro e hle hprov
    simp only [get_user_oauth_token, refresh_user_oauth_token, htok, hexp, hprov,
      if_pos hle]
    cases hrt : u.google_refresh_token <;> simp
  · intro hle hrt
    simp only [get_user_oauth_token, refresh_user_oauth_token, htok, hexp, hrt,
      if_pos hle]
  · intro hlt
    simp only [get_user_oauth_token, htok, hexp, if_neg (by omega : ¬ exp ≤ now)]

/-- C8 witness: the refresh flow at a concrete expired credential. -/
theorem c8_credential_proxy_spec_witness :
    get_user_oauth_token
      (some { google_oauth_token := some { access_token := strL (r"old"),
                                           refresh_token := some (strL (r"ref")),
                                           expiry := some 10,
                                           scopes := [strL (r"cal")] },
              google_token_expiry := some 10,
              google_refresh_token := some (strL (r"ref")) })
      20 (Except.ok { token := strL (r"new"), expiry := some 90, scopes := [strL (r"cal")] })
      = (some { access_token := strL (r"new"), refresh_token := some (strL (r"ref")),
                expiry := some 90, scopes := [strL (r"cal")] },
         some { google_oauth_token := some { access_token := strL (r"new"),
                                             refresh_token := some (strL (r"ref")),
                                             expiry := some 90,
                                             scopes := [strL (r"cal")] },
                google_token_expiry := some 90,
                google_refresh_token := some (strL (r"ref")) }) :=
  (c8_credential_proxy_spec _ 20 _ _ 10 rfl rfl).1 (strL (r"ref")) _ (by omega) rfl rfl

/-- C9: for every weekday name `w` (at position `i` of the Monday-first
weekday list), `parse_date` on `"next " + w` returns a date strictly after
today whose weekday is `i`; when today already has that weekday the result
is exactly today + 7; otherwise it is the next (earliest) such day. -/
theorem c9_parse_next_weekday (today : Nat) (w : List Char) (i : Nat)
    (h : idxOf weekdayNames w = some i) :
    ∃ d, parse_date_nl (strL (r"next ") ++ w) today = some d
      ∧ today < d ∧ d % 7 = i
      ∧ (today % 7 = i → d = today + 7)
      ∧ ∀ e, today < e → e < d → e % 7 ≠ i := by
  have hcases := idxOf_cases w i h
  have hi : i < 7 := by
    rcases hcases with ⟨_, h7⟩ | ⟨_, h7⟩ | ⟨_, h7⟩ | ⟨_, h7⟩ | ⟨_, h7⟩ | ⟨_, h7⟩ | ⟨_, h7⟩
      <;> omega
  have hcont : containsSub (strL (r"next ")) w = false := by
    rcases hcases with ⟨hw, _⟩ | ⟨hw, _⟩ | ⟨hw, _⟩ | ⟨hw, _⟩ | ⟨hw, _⟩ | ⟨hw, _⟩ | ⟨hw, _⟩
      <;> rw [hw] <;> decide
  refine ⟨_, parse_next_eq w i today h hcont, ?_⟩
  rcases next_weekday_arith today i hi _ rfl with ⟨ha, hb, hc, hd⟩
  exact ⟨ha, by rw [hb]; exact Nat.mod_eq_of_lt hi, hc, hd⟩

/-- C9 witness: `"next thursday"` asked on a Thursday (day 3) lands exactly
seven days later. -/
theorem c9_parse_next_weekday_witness :
    ∃ d, parse_date_nl (strL (r"next ") ++ strL (r"thursday")) 3 = some d
      ∧ 3 < d ∧ d % 7 = 3
      ∧ (3 % 7 = 3 → d = 3 + 7)
      ∧ ∀ e, 3 < e → e < d → e % 7 ≠ 3 :=
  c9_parse_next_weekday 3 (strL (r"thursday")) 3 (by decide)

/-- C10: the `Type:`/`Status:` enum constructors reject every value outside
the closed enumerations (`none` models the raised `ValueError`), so an
event whose description carries such a value does not decode, while the
scheduled/checkup defaults apply only when the key is missing entirely. -/
theorem c10_unknown_enum_value_rejected (v w : List Char) (hv : nl ∉ v) (hw : nl ∉ w) :
    (typeOfValue v = none ↔ v ∉ [strL (r"checkup"), strL (r"consultation"),
      strL (r"follow_up"), strL (r"urgent"), strL (r"other")])
    ∧ (statusOfValue w = none ↔ w ∉ [strL (r"scheduled"), strL (r"confirmed"),
      strL (r"cancelled"), strL (r"no_show"), strL (r"completed")])
    ∧ (typeOfValue v = none →
      from_calendar_event
        { id := none, summary := [], description := descWithType v,
          start := 0, stop := 0, created := none } = none)
    ∧ (statusOfValue w = none →
      from_calendar_event
        { id := none, summary := [], description := descWithStatus w,
          start := 0, stop := 0, created := none } = none)
    ∧ from_calendar_event
        { id := none, summary := [], description := strL (r"Patient: Ann"),
          start := 0, stop := 0, created := none }
      = some { id := none
               patient := { name := strL (r"Ann"), phone := [], email := none, notes := none }
               start_time := 0, end_time := 0
               appointment_type := AppointmentType.checkup
               status := AppointmentStatus.scheduled
               reminder_sent := false, created_at := none } := by
  refine ⟨?_, ?_, ?_, ?_, ?_⟩
  · unfold typeOfValue
    split_ifs <;> simp_all
  · unfold statusOfValue
    split_ifs <;> simp_all
  · intro htv
    have h3mem : nl ∉ strL (r"Type: ") ++ v := by
      intro hm
      rcases List.mem_append.mp hm with h | h
      · exact absurd h (by decide)
      · exact hv h
    have hlines : splitOnChar nl (descWithType v) =
        [strL (r"Patient: Ann"), strL (r"Phone: 123"),
          strL (r"Type: ") ++ v, strL (r"Status: scheduled")] := by
      rw [show descWithType v = strL (r"Patient: Ann") ++ nl ::
        (strL (r"Phone: 123") ++ nl ::
          ((strL (r"Type: ") ++ v) ++ nl :: strL (r"Status: scheduled"))) from rfl]
      rw [splitOnChar_append _ (by decide), splitOnChar_append _ (by decide),
        splitOnChar_append _ h3mem, splitOnChar_of_not_mem (by decide)]
    have hparse : parseDescription (descWithType v) =
        [(strL (r"patient"), strL (r"Ann")),
         (strL (r"phone"), strL (r"123")),
         (strL (r"type"), v),
         (strL (r"status"), strL (r"scheduled"))] := by
      unfold parseDescription
      rw [hlines]
      rw [show strL (r"Patient: Ann") = strL (r"Patient: ") ++ strL (r"Ann") from rfl,
        show strL (r"Phone: 123") = strL (r"Phone: ") ++ strL (r"123") from rfl,
        show strL (r"Status: scheduled") = strL (r"Status: ") ++ strL (r"scheduled") from rfl]
      simp only [List.filterMap_cons, List.filterMap_nil,
        splitFirst_patient, splitFirst_phone, splitFirst_type, splitFirst_status,
        normKey_patient, normKey_phone, normKey_type, normKey_status]
    simp only [from_calendar_event, hparse]
    simp +decide only [lookupKey, Option.getD_some, if_true, if_false]
    rw [htv]
  · intro hsw
    have h3mem : nl ∉ strL (r"Status: ") ++ w := by
      intro hm
      rcases List.mem_append.mp hm with h | h
      · exact absurd h (by decide)
      · exact hw h
    have hlines : splitOnChar nl (descWithStatus w) =
        [strL (r"Patient: Ann"), strL (r"Phone: 123"), strL (r"Status: ") ++ w] := by
      rw [show descWithStatus w = strL (r"Patient: Ann") ++ nl ::
        (strL (r"Phone: 123") ++ nl :: (strL (r"Status: ") ++ w)) from rfl]
      rw [splitOnChar_append _ (by decide), splitOnChar_append _ (by decide),
        splitOnChar_of_not_mem h3mem]
    have hparse : parseDescription (descWithStatus w) =
        [(strL (r"patient"), strL (r"Ann")),
         (strL (r"phone"), strL (r"123")),
         (strL (r"status"), w)] := by
      unfold parseDescription
      rw [hlines]
      rw [show strL (r"Patient: Ann") = strL (r"Patient: ") ++ strL (r"Ann") from rfl,
        show strL (r"Phone: 123") = strL (r"Phone: ") ++ strL (r"123") from rfl]
      simp only [List.filterMap_cons, List.filterMap_nil,
        splitFirst_patient, splitFirst_phone, splitFirst_status,
        normKey_patient, normKey_phone, normKey_status]
    simp only [from_calendar_event, hparse]
    simp +decide only [lookupKey, Option.getD_some, Option.getD_none, if_true, if_false]
    rw [hsw]
    simp +decide
  · simp +decide [from_calendar_event, parseDescription, splitOnChar, splitFirst,
      replaceAll, toLowerL, lookupKey, typeOfValue, statusOfValue, strL, nl]

/-- C10 witness: the rejection at concrete hand-edited values `banana` and
`pending`, both outside the enumerations. -/
theorem c10_unknown_enum_value_rejected_witness :
    (typeOfValue (strL (r"banana")) = none ↔ strL (r"banana") ∉ [strL (r"checkup"),
      strL (r"consultation"), strL (r"follow_up"), strL (r"urgent"), strL (r"other")])
    ∧ (statusOfValue (strL (r"pending")) = none ↔ strL (r"pending") ∉ [strL (r"scheduled"),
      strL (r"confirmed"), strL (r"cancelled"), strL (r"no_show"), strL (r"completed")])
    ∧ (typeOfValue (strL (r"banana")) = none →
      from_calendar_event
        { id := none, summary := [], description := descWithType (strL (r"banana")),
          start := 0, stop := 0, created := none } = none)
    ∧ (statusOfValue (strL (r"pending")) = none →
      from_calendar_event
        { id := none, summary := [], description := descWithStatus (strL (r"pending")),
          start := 0, stop := 0, created := none } = none)
    ∧ from_calendar_event
        { id := none, summary := [], description := strL (r"Patient: Ann"),
          start := 0, stop := 0, created := none }
      = some { id := none
               patient := { name := strL (r"Ann"), phone := [], email := none, notes := none }
               start_time := 0, end_time := 0
               appointment_type := AppointmentType.checkup
               status := AppointmentStatus.scheduled
               reminder_sent := false, created_at := none } :=
  c10_unknown_enum_value_rejected (strL (r"banana")) (strL (r"pending"))
    (by decide) (by decide)
